import Mathlib

/-!
Shallow embedding of `src/ocr_to_dracor_tei.py` (PAGE-XML to DraCor-TEI
converter).  XML documents are modelled at the level of the data the script
extracts from them: a page file is a reading order plus a list of raw regions,
a raw region is a classification type plus raw lines, a raw line carries its
polygon points string, glyph information and transcription alternatives.
Python exceptions are modelled with `Except` / an error-carrying result type;
the mutable `lxml` element tree is modelled as an arena (`Store`) of nodes
addressed by allocation index, which mirrors Python's heap references.
Python string primitives (`str.split`, `int(...)`, string comparison) are
implemented structurally over `List Char` so that everything evaluates.
-/

namespace Drama

/-- Python exception kinds that the script can raise. -/
inductive PErr where
  | typeError
  | attributeError
  | valueError
  | indexError
  | parseError
deriving Repr, DecidableEq

/-! ### Python string primitives -/

/-- Python string `<=`: lexicographic comparison of code points. -/
def charListLe : List Char → List Char → Bool
  | [], _ => true
  | _ :: _, [] => false
  | a :: as, b :: bs => if a < b then true else if b < a then false else charListLe as bs

/-- Python `a <= b` on strings. -/
def strLe (a b : String) : Bool := charListLe a.data b.data

/-- Python `str.split(sep)` for a one-character separator: non-merging,
`"".split(sep) == [""]`. -/
def splitOnChar (sep : Char) : List Char → List (List Char)
  | [] => [[]]
  | c :: cs =>
    match splitOnChar sep cs with
    | [] => [[c]]
    | h :: t => if c == sep then [] :: h :: t else (c :: h) :: t

/-- Decimal digit run for `pyInt?`. -/
def digitsVal (acc : Nat) : List Char → Option Nat
  | [] => some acc
  | c :: cs => if c.isDigit then digitsVal (acc * 10 + (c.toNat - '0'.toNat)) cs else none

/-- ASCII whitespace stripped by Python `int(...)`. -/
def isSpaceChar (c : Char) : Bool := c == ' ' || c == '\t' || c == '\n' || c == '\r'

/-- Python `int(...)` on a character list: strip whitespace, optional sign,
at least one decimal digit; `none` models `ValueError`.  (Underscore
grouping and non-ASCII digits are not modelled.) -/
def pyIntChars? (l : List Char) : Option Int :=
  match (l.dropWhile isSpaceChar).reverse.dropWhile isSpaceChar |>.reverse with
  | [] => none
  | '-' :: rest =>
    match rest with
    | [] => none
    | _ :: _ => (digitsVal 0 rest).map (fun n => -(n : Int))
  | '+' :: rest =>
    match rest with
    | [] => none
    | _ :: _ => (digitsVal 0 rest).map (fun n => (n : Int))
  | rest => (digitsVal 0 rest).map (fun n => (n : Int))

/-- Effectful list map for Python list comprehensions: the first raise
propagates. -/
def mapExcept (f : α → Except PErr β) : List α → Except PErr (List β)
  | [] => Except.ok []
  | a :: l =>
    match f a with
    | Except.error e => Except.error e
    | Except.ok b =>
      match mapExcept f l with
      | Except.error e => Except.error e
      | Except.ok bs => Except.ok (b :: bs)

/-! ### Input data model -/

/-- One `TextEquiv` child of a line: optional `index` attribute and the
text of its `Unicode` child (modelled as a string; an absent or empty text
behaves like the empty string here). -/
structure TextEquiv where
  index : Option String
  unicode : String
deriving Repr, DecidableEq

/-- Raw data of one `TextLine` element: the `points` attribute of its
`Coords` child (`none` when the element or attribute is missing), whether
the line contains any `Glyph` descendant, the `points` attribute of the
first `Glyph`'s `Coords` (`none` when that path or its attribute is
missing), and the `TextEquiv` children. -/
structure RawLine where
  coords : Option String
  hasGlyph : Bool
  glyphCoords : Option String
  alts : List TextEquiv
deriving Repr, DecidableEq

/-- Raw data of one `TextRegion` element: `id` and `type` attributes
(`get` returns `None` when absent) and the `TextLine` children. -/
structure RawRegion where
  id : Option String
  type : Option String
  lines : List RawLine
deriving Repr, DecidableEq

/-- Raw data of one page file: the file path, the `RegionRefIndexed`
reading order (`parse_reading_order`), and the `TextRegion` elements. -/
structure PageFile where
  file : String
  readingOrder : List (Option String)
  regions : List RawRegion
deriving Repr, DecidableEq

/-! ### GeometryResolver -/

/-- `TextRegion.convert_coordinates`: split the points string on blanks,
split each token on a comma into exactly two integers.  Any malformed
token raises `ValueError`. -/
def convert_coordinates (points : String) : Except PErr (List (Int × Int)) :=
  mapExcept (fun p =>
    match splitOnChar ',' p with
    | [xs, ys] =>
      match pyIntChars? xs, pyIntChars? ys with
      | some x, some y => Except.ok (x, y)
      | _, _ => Except.error PErr.valueError
    | _ => Except.error PErr.valueError)
    (splitOnChar ' ' points.data)

/-- The `(y, x)` ordering used by `TextRegion.get_reference_point`
(`key=itemgetter(1, 0)`). -/
def refLt (a b : Int × Int) : Prop := a.2 < b.2 ∨ (a.2 = b.2 ∧ a.1 ≤ b.1)

instance : DecidableRel refLt := fun a b => by unfold refLt; infer_instance

/-- `TextRegion.get_reference_point`: `sorted(points, key=itemgetter(1, 0))[0]`,
the lexicographically smallest point ordered by `(y, x)`.  The input is never
empty in the script (`convert_coordinates` yields at least one point), so the
default is unreachable. -/
def get_reference_point (points : List (Int × Int)) : Int × Int :=
  (points.insertionSort refLt).headD (0, 0)

/-- A parsed text line: reference point and transcription alternatives. -/
structure TextLine where
  x : Int
  y : Int
  alts : List TextEquiv
deriving Repr, DecidableEq

/-- The `[index, text]` pairs built inside `TextLine.get_text`:
`findall("TextEquiv[@index]")` followed by the list comprehension reading
the `index` attribute and the `Unicode` text. -/
def TextLine.indexed_pairs (l : TextLine) : List (String × String) :=
  (l.alts.filter (fun e => e.index.isSome)).map (fun e => (e.index.getD "", e.unicode))

/-- The index ordering used by `TextLine.get_text`
(`sort(key=itemgetter(0))`, Python string comparison). -/
def idxLe (a b : String × String) : Prop := strLe a.1 b.1 = true

instance : DecidableRel idxLe := fun a b => by unfold idxLe; infer_instance

/-- `TextLine.get_text`: sort the indexed pairs by the `index` string
(a stable sort under string comparison) and return the text of the first;
`""` on `IndexError` (no pair). -/
def TextLine.get_text (l : TextLine) : String :=
  match (TextLine.indexed_pairs l).insertionSort idxLe with
  | [] => ""
  | a :: _ => a.2

/-- The line ordering used by `TextRegion.get_lines`
(`lines.sort(key=attrgetter("y"))`). -/
def yLe (a b : TextLine) : Prop := a.y ≤ b.y

instance : DecidableRel yLe := fun a b => by unfold yLe; infer_instance

instance : IsTotal TextLine yLe := ⟨fun a b => Int.le_total a.y b.y⟩

instance : IsTrans TextLine yLe := ⟨fun _ _ _ h1 h2 => Int.le_trans h1 h2⟩

/-- The line list built by `TextRegion.get_lines` before the final
`lines.sort(key=attrgetter("y"))`.  When no `Glyph` exists in the region the
reference point comes from each line's own `Coords` (missing data raises and
propagates); otherwise it comes from each line's first glyph `Coords`,
and a line without that data raises `AttributeError` which is caught,
silently skipping the line (`ValueError` from a malformed points string
still propagates). -/
def get_lines_raw (rls : List RawLine) : Except PErr (List TextLine) :=
  if (rls.any (fun l => l.hasGlyph)) = false then
    mapExcept (fun l =>
      match l.coords with
      | none => Except.error PErr.attributeError
      | some s =>
        (convert_coordinates s).map (fun pts =>
          let rp := get_reference_point pts
          { x := rp.1, y := rp.2, alts := l.alts }))
      rls
  else
    glyphCollect rls
where
  /-- The glyph branch of `get_lines` with its per-line
  `except AttributeError: pass`. -/
  glyphCollect : List RawLine → Except PErr (List TextLine)
    | [] => Except.ok []
    | l :: ls =>
      match l.glyphCoords with
      | none => glyphCollect ls
      | some s =>
        match convert_coordinates s with
        | Except.error e => Except.error e
        | Except.ok pts =>
          (glyphCollect ls).map (fun rest =>
            let rp := get_reference_point pts
            { x := rp.1, y := rp.2, alts := l.alts } :: rest)

/-- `TextRegion.get_lines`: the collected lines sorted ascending by `y`
(Python's `list.sort` is stable; `List.insertionSort` is the stable sort
used throughout this embedding). -/
def get_lines (rls : List RawLine) : Except PErr (List TextLine) :=
  (get_lines_raw rls).map (fun ls => ls.insertionSort yLe)

/-- A parsed `TextRegion`: attributes, sorted lines, and the reference
point of the first (topmost) line. -/
structure TextRegion where
  id : Option String
  type : Option String
  line : List TextLine
  x : Int
  y : Int
deriving Repr, DecidableEq

/-- `TextRegion.__init__` (with the default positive `line_height`):
parse and sort the lines, then take `self.line[0]`'s reference point —
`IndexError` when every line was skipped. -/
def TextRegion.make (r : RawRegion) : Except PErr TextRegion :=
  match get_lines r.lines with
  | Except.error e => Except.error e
  | Except.ok [] => Except.error PErr.indexError
  | Except.ok (l0 :: ls) =>
    Except.ok { id := r.id, type := r.type, line := l0 :: ls, x := l0.x, y := l0.y }

/-- `Conversion.concatenate_lines`: newline-join of the lines' texts with
falsy (empty) entries removed by `filter(None, ...)`. -/
def concatenate_lines (r : TextRegion) : String :=
  String.intercalate "\n" ((r.line.map TextLine.get_text).filter (fun s => s ≠ ""))

/-- Lookup in `Page.text_region_dict`.  The Python dict comprehension
`{tr.id: tr for tr in list}` lets a later region with the same id
overwrite an earlier one, hence `getLast?` over the matching regions. -/
def text_region_dict_lookup (regs : List TextRegion) (k : Option String) : Option TextRegion :=
  (regs.filter (fun r => r.id == k)).getLast?

/-- `Page.sort_text_region`: when the region dict is empty the list is left
untouched, otherwise it becomes
`[dict[rid] for rid in reading_order if rid in dict]`. -/
def sort_text_region (regs : List TextRegion) (readingOrder : List (Option String)) :
    List TextRegion :=
  if regs.isEmpty then regs
  else readingOrder.filterMap (text_region_dict_lookup regs)

/-- A parsed page: file path, reading order, and the resolved region list. -/
structure Page where
  file : String
  reading_order : List (Option String)
  text_region_list : List TextRegion
deriving Repr, DecidableEq

/-- `Page.__init__`: keep the `TextRegion` elements that have a `TextLine`
child (`findall(".//TextRegion[TextLine]")`), parse each one (the first
failure propagates out of the constructor), then apply
`sort_text_region`. -/
def Page.make (pf : PageFile) : Except PErr Page :=
  match mapExcept TextRegion.make (pf.regions.filter (fun r => !r.lines.isEmpty)) with
  | Except.error e => Except.error e
  | Except.ok regs =>
    Except.ok { file := pf.file, reading_order := pf.readingOrder,
                text_region_list := sort_text_region regs pf.readingOrder }

/-! ### The lxml element arena -/

/-- One element of the mutable `lxml` tree: tag, attributes, text, and the
indices of its children in the arena. -/
structure Node where
  tag : String
  attrs : List (String × String)
  text : Option String
  children : List Nat
deriving Repr, DecidableEq

/-- The arena of allocated elements; an element reference is its index.
This mirrors Python heap references, including aliasing. -/
abbrev Store := List Node

/-- `etree.Element(tag, attrib)`: allocate a fresh element. -/
def Store.newElem (st : Store) (tag : String) (attrs : List (String × String)) :
    Store × Nat :=
  (st ++ [{ tag := tag, attrs := attrs, text := none, children := [] }], st.length)

/-- Update the node at index `i` in place. -/
def Store.updateAt : Store → Nat → (Node → Node) → Store
  | [], _, _ => []
  | nd :: st, 0, f => f nd :: st
  | nd :: st, i + 1, f => nd :: Store.updateAt st i f

/-- Read the node at index `i`. -/
def Store.read? (st : Store) (i : Nat) : Option Node := st.get? i

/-- `etree.SubElement(parent, tag, attrib)`: allocate and append the new
index to the parent's children. -/
def Store.subElem (st : Store) (parent : Nat) (tag : String)
    (attrs : List (String × String)) : Store × Nat :=
  let r := st.newElem tag attrs
  (r.1.updateAt parent (fun nd => { nd with children := nd.children ++ [r.2] }), r.2)

/-- Assignment to an element's `.text`. -/
def Store.setTextAt (st : Store) (i : Nat) (t : String) : Store :=
  st.updateAt i (fun nd => { nd with text := some t })

/-- A serialized element subtree, as captured by an `xf.write` call. -/
inductive Tree where
  | node : String → List (String × String) → Option String → List Tree → Tree

def Tree.tag : Tree → String
  | Tree.node t _ _ _ => t

def Tree.attrs : Tree → List (String × String)
  | Tree.node _ a _ _ => a

def Tree.text : Tree → Option String
  | Tree.node _ _ tx _ => tx

def Tree.children : Tree → List Tree
  | Tree.node _ _ _ c => c

/-- Serialization of element `i` at write time.  The fuel only bounds the
depth; children are always allocated after their parent, so any fuel of at
least `st.length + 1` fully materializes the subtree. -/
def materializeTree (st : Store) : Nat → Nat → Tree
  | 0, _ => Tree.node "" [] none []
  | fuel + 1, i =>
    match st.read? i with
    | none => Tree.node "" [] none []
    | some nd => Tree.node nd.tag nd.attrs nd.text (nd.children.map (materializeTree st fuel))

/-- Serialize element `i` from the current store. -/
def snapshot (st : Store) (i : Nat) : Tree := materializeTree st (st.length + 1) i

/-! ### The Conversion state and its method monad -/

/-- The mutable state of `Conversion` (the `self.__...` fields and
`self.current_file`), plus the element arena and the streams of `xf.write`
calls.  `scenario_tag` models `self.__current_scenario`, which is created
on first assignment (`none` = reading it raises `AttributeError`);
`set_div` models `self.__set`; `debug` collects the non-error prints made
inside the build methods. -/
structure Conv where
  store : Store
  frontWritten : List Tree
  bodyWritten : List Tree
  debug : List String
  text_part : String
  previous_type : Option String
  front : Option Nat
  title_page : Option Nat
  is_title_page_created : Bool
  div_preface : Option Nat
  prologue : Option Nat
  act : Option Nat
  scene : Option Nat
  stage : Option Nat
  cast_list : Option Nat
  cast_item : Option Nat
  sp_grp : Option Nat
  sp : Option Nat
  set_div : Option Nat
  scenario_tag : Option String
  current_file : String

/-- Result of a `Conversion` method: the state survives a raise, so partial
mutations made before an exception persist, as in Python. -/
inductive Res (α : Type) where
  | ok : α → Conv → Res α
  | err : PErr → Conv → Res α

/-- State-and-exception monad for the `Conversion` methods. -/
def M (α : Type) : Type := Conv → Res α

def M.pure (a : α) : M α := fun c => Res.ok a c

def M.bind (m : M α) (f : α → M β) : M β := fun c =>
  match m c with
  | Res.ok a c1 => f a c1
  | Res.err e c1 => Res.err e c1

instance : Monad M where
  pure := M.pure
  bind := M.bind

def mget : M Conv := fun c => Res.ok c c

def mmodify (f : Conv → Conv) : M Unit := fun c => Res.ok () (f c)

def mthrow (e : PErr) : M α := fun c => Res.err e c

/-- The state carried by a method result, raised or not. -/
def Res.state : Res α → Conv
  | Res.ok _ c => c
  | Res.err _ c => c

/-- `etree.SubElement(parent, ...)` where the parent reference may be
`None` (`TypeError`, as in lxml). -/
def subElement (parent : Option Nat) (tag : String) (attrs : List (String × String)) :
    M Nat := fun c =>
  match parent with
  | none => Res.err PErr.typeError c
  | some p =>
    let r := c.store.subElem p tag attrs
    Res.ok r.2 { c with store := r.1 }

/-- `etree.Element(...)`. -/
def newElement (tag : String) (attrs : List (String × String)) : M Nat := fun c =>
  let r := c.store.newElem tag attrs
  Res.ok r.2 { c with store := r.1 }

/-- `el.text = s`. -/
def putText (i : Nat) (s : String) : M Unit :=
  mmodify (fun c => { c with store := c.store.setTextAt i s })

/-- `xf.write(el)` inside the `body` element; `xf.write(None)` raises. -/
def writeBody : Option Nat → M Unit
  | none => mthrow PErr.typeError
  | some i => mmodify (fun c => { c with bodyWritten := c.bodyWritten ++ [snapshot c.store i] })

/-- `xf.write(el)` directly under `text` (the front subtree). -/
def writeFrontTree : Option Nat → M Unit
  | none => mthrow PErr.typeError
  | some i => mmodify (fun c => { c with frontWritten := c.frontWritten ++ [snapshot c.store i] })

/-- A non-error `print` inside a build method. -/
def debugLog (s : String) : M Unit := mmodify (fun c => { c with debug := c.debug ++ [s] })

/-- `self.current_file.split("/")[-1]`. -/
def lastPathComponent (s : String) : String :=
  match (splitOnChar '/' s.data).getLast? with
  | none => s
  | some cs => String.mk cs

/-- `BODY_MARKER` from `create_tei`. -/
def BODY_MARKER : List String := ["header", "heading", "floating", "credit", "drop-capital"]

/-- `text_region.type in BODY_MARKER` (a `None` type is never a member). -/
def typeInMarker (r : TextRegion) : Bool :=
  match r.type with
  | none => false
  | some t => BODY_MARKER.contains t

/-- The `UNKNOWN` warning string of `build_front` / `build_body`. -/
def UNKNOWN_WARNING : String :=
  "WARNING!, the following paragraph couldn\x27t be handled\ncorrectly. You have to solve this by yourself."

/-! ### FrontMatterTransducer -/

/-- `Conversion.build_front`. -/
def build_front (r : TextRegion) : M Unit := do
  let c0 ← mget
  if c0.previous_type == some "catch-word" && !(r.type == some "catch-word") then
    mmodify (fun c => { c with is_title_page_created := true })
  let c ← mget
  if r.type == some "catch-word" then
    if c.is_title_page_created then
      let dp ← subElement c.front "div" [("type", "preface")]
      mmodify (fun c2 => { c2 with div_preface := some dp })
      let p ← subElement (some dp) "p" []
      putText p "WARNING!, the following \x27head\x27 might be slightly misplaced. Maybe\nthere is a more suitable parent tag or it might be another title page."
      let hd ← subElement (some dp) "head" []
      putText hd (concatenate_lines r)
    else
      if !(c.previous_type == some "catch-word") then
        let tp ← subElement c.front "titlePage" []
        mmodify (fun c2 => { c2 with title_page := some tp })
        let t1 ← subElement (some tp) "titlePart" []
        putText t1 "WARNING!, it\x27s just assumed that this is the title page, check\nthis. Also check if the following \x27head\x27 elements in \x27front\x27 may be (another)\ntitle page."
      let c1 ← mget
      let t2 ← subElement c1.title_page "titlePart" []
      putText t2 (concatenate_lines r)
  else if r.type == some "other" then
    if !(c.previous_type == some "other" || c.previous_type == some "catch-word")
        || c.div_preface == none then
      let dp ← subElement c.front "div" [("type", "preface")]
      mmodify (fun c2 => { c2 with div_preface := some dp })
    let c1 ← mget
    let p ← subElement c1.div_preface "p" []
    putText p (concatenate_lines r)
  else if r.type == some "TOC-entry" then
    if !(c.previous_type == some "TOC-entry" || c.previous_type == some "signature-mark")
        || c.cast_list == none then
      let cl ← subElement c.front "castList" []
      mmodify (fun c2 => { c2 with cast_list := some cl })
    let c1 ← mget
    let ci ← subElement c1.cast_list "castItem" []
    mmodify (fun c2 => { c2 with cast_item := some ci })
    let role ← subElement (some ci) "role" []
    putText role (concatenate_lines r)
  else if r.type == some "signature-mark" then
    if c.cast_item == none then
      let clr ← subElement c.front "castList" []
      let cir ← subElement (some clr) "castItem" []
      let role ← subElement (some cir) "role" []
      putText role "WARNING!, it seems that the role is missing. You should fix this."
      let rd ← subElement (some cir) "roleDesc" []
      putText rd (concatenate_lines r)
    else
      let rd ← subElement c.cast_item "roleDesc" []
      putText rd (concatenate_lines r)
  else if r.type == some "footnote" then
    let un ← subElement c.front "div" [("type", "notes")]
    let p ← subElement (some un) "p" []
    putText p "WARNING!, this footnote couldn\x27t be placed correctly, you have to\nsolve this by yourself."
    let fn ← subElement (some un) "note" [("place", "foot")]
    putText fn (concatenate_lines r)
  else
    let unknown ← subElement c.front "div" [("type", "notes")]
    let type_str ← (match r.type with
      | none => mthrow PErr.typeError
      | some t => (pure ("type = " ++ t) : M String))
    let p1 ← subElement (some unknown) "p" []
    putText p1 UNKNOWN_WARNING
    let p2 ← subElement (some unknown) "p" []
    putText p2 type_str
    let p3 ← subElement (some unknown) "p" []
    putText p3 (concatenate_lines r)
  mmodify (fun c2 => { c2 with previous_type := r.type })

/-- `Conversion.write_front`: append the diagnostic `set` placeholder,
write the front subtree, switch the phase to body. -/
def write_front : M Unit := do
  let c ← mget
  let st ← subElement c.front "set" []
  let p ← subElement (some st) "p" []
  putText p "WARNING!, the description of the setting (if existing) may\nbe misplaced as a \x27roleDesc\x27 element in the \x27castList\x27. Place it at the correct place in an element like this."
  let c1 ← mget
  writeFrontTree c1.front
  mmodify (fun c2 => { c2 with text_part := "body" })

/-! ### BodyTransducer -/

/-- The `header` branch of `build_body` (lines 295-304). -/
def body_header (r : TextRegion) (act_number : Nat) : M Nat := do
  let c ← mget
  if c.prologue.isSome then
    writeBody c.prologue
    mmodify (fun c2 => { c2 with prologue := none })
  let n := act_number + 1
  if n > 1 then
    let c1 ← mget
    writeBody c1.act
  let a ← newElement "div" [("type", "act")]
  mmodify (fun c2 => { c2 with act := some a })
  let hd ← subElement (some a) "head" []
  putText hd (concatenate_lines r)
  pure n

/-- The `heading` branch of `build_body` (lines 306-319). -/
def body_heading (r : TextRegion) : M Unit := do
  let c ← mget
  if c.act == none then
    if c.prologue.isSome then
      writeBody c.prologue
    let pr ← newElement "div" [("type", "prologue")]
    mmodify (fun c2 => { c2 with prologue := some pr })
    let hd ← subElement (some pr) "head" []
    putText hd (concatenate_lines r)
  else
    let sc ← subElement c.act "div" [("type", "scene")]
    mmodify (fun c2 => { c2 with scene := some sc })
    let hd ← subElement (some sc) "head" []
    putText hd (concatenate_lines r)
    let stg ← subElement (some sc) "stage" []
    let cl ← subElement (some stg) "castList" []
    mmodify (fun c2 => { c2 with cast_list := some cl })
  debugLog "Initialized scene"

/-- The `TOC-entry` branch of `build_body` (lines 321-323). -/
def body_toc (r : TextRegion) : M Unit := do
  let c ← mget
  let ci ← subElement c.cast_list "castItem" []
  putText ci (concatenate_lines r)

/-- The `signature-mark` branch of `build_body` (lines 325-330). -/
def body_signature (r : TextRegion) : M Unit := do
  let c ← mget
  let stg ← (if c.prologue.isSome then subElement c.prologue "stage" []
             else subElement c.scene "stage" [])
  putText stg (concatenate_lines r)

/-- The `floating` branch of `build_body` (lines 332-343). -/
def body_floating (r : TextRegion) : M Unit := do
  let c ← mget
  let grp ← (if c.prologue.isSome then subElement c.prologue "spGrp" []
             else subElement c.scene "spGrp" [])
  mmodify (fun c2 => { c2 with sp_grp := some grp })
  let hd ← subElement (some grp) "head" []
  putText hd (concatenate_lines r)
  let s ← subElement (some grp) "sp" []
  let spk ← subElement (some s) "speaker" []
  putText spk "WARNING!"
  let p ← subElement (some s) "p" []
  putText p "WARNING! Place the closing \x27spGrp\x27 tag after the last \x27sp\x27 tag of the\nsinging."

/-- The `credit` / `drop-capital` branch of `build_body` (lines 345-356). -/
def body_credit (r : TextRegion) : M Unit := do
  let c ← mget
  if c.prologue.isSome then
    let s ← subElement c.prologue "sp" []
    mmodify (fun c2 => { c2 with sp := some s })
  else
    if c.scene == none then
      debugLog "Error: Scene not initialized"
      let c1 ← mget
      let sc ← subElement c1.act "div" [("type", "scene")]
      mmodify (fun c2 => { c2 with scene := some sc })
      debugLog "Initialized scene in fallback"
    let c2 ← mget
    let s ← subElement c2.scene "sp" []
    mmodify (fun c3 => { c3 with sp := some s })
  let c4 ← mget
  let spk ← subElement c4.sp "speaker" []
  putText spk (concatenate_lines r)

/-- The `paragraph` branch of `build_body` (lines 358-364). -/
def body_paragraph (r : TextRegion) : M Unit := do
  let c ← mget
  if c.sp == none then
    let s ← subElement c.scene "sp" []
    mmodify (fun c2 => { c2 with sp := some s })
    let spk ← subElement (some s) "speaker" []
    putText spk "WARNING!, it seems that the speaker is missing."
  let c1 ← mget
  let p ← subElement c1.sp "p" []
  putText p (concatenate_lines r)

/-- The `caption` branch of `build_body` (lines 366-408), with the
short-circuit reads of `self.__current_scenario` (an unset attribute
raises). -/
def body_caption (r : TextRegion) : M Unit := do
  let c ← mget
  if c.previous_type == some "header" then
    if c.set_div == none then
      let sd ← subElement c.act "div" [("type", "set")]
      mmodify (fun c2 => { c2 with set_div := some sd })
    let c1 ← mget
    let p ← subElement c1.set_div "p" []
    putText p (concatenate_lines r)
    mmodify (fun c2 => { c2 with scenario_tag := some "set" })
  else
    let cond2 ← (if c.previous_type == some "caption" then
        match c.scenario_tag with
        | none => (mthrow PErr.attributeError : M Bool)
        | some v => pure (v == "set")
      else pure false)
    if cond2 then
      let p ← subElement c.set_div "p" []
      putText p (concatenate_lines r)
    else if c.previous_type == some "paragraph" then
      let stg ← subElement c.scene "stage" []
      mmodify (fun c2 => { c2 with stage := some stg })
      let p ← subElement (some stg) "p" []
      putText p (concatenate_lines r)
      mmodify (fun c2 => { c2 with scenario_tag := some "paragraph" })
    else
      let cond4 ← (if c.previous_type == some "caption" then
          match c.scenario_tag with
          | none => (mthrow PErr.attributeError : M Bool)
          | some v => pure (v == "paragraph")
        else pure false)
      if cond4 then
        let c1 ← mget
        let p ← subElement c1.stage "p" []
        putText p (concatenate_lines r)
      else
        if c.previous_type == some "credit" || c.previous_type == some "heading"
            || c.previous_type == some "scene" then
          let c1 ← mget
          if c1.sp.isSome then
            let stg ← subElement c1.sp "stage" []
            putText stg (concatenate_lines r)
          else
            let stg ← subElement c1.scene "stage" []
            putText stg (concatenate_lines r)
          mmodify (fun c2 => { c2 with scenario_tag := some "normal" })
        else
          let c1 ← mget
          if c1.prologue.isSome then
            let stg ← subElement c1.prologue "stage" []
            putText stg (concatenate_lines r)
          else
            let stg ← subElement c1.scene "stage" []
            putText stg (concatenate_lines r)
          mmodify (fun c2 => { c2 with scenario_tag := some "normal" })

/-- The `footnote` branch of `build_body` (lines 410-418). -/
def body_footnote (r : TextRegion) : M Unit := do
  let c ← mget
  let un ← (if c.prologue.isSome then subElement c.prologue "div" [("type", "notes")]
            else subElement c.scene "div" [("type", "notes")])
  let p ← subElement (some un) "p" []
  putText p ("WARNING!, this footnote couldn\x27t be placed correctly, you have to\nsolve this by yourself. Source file: " ++ lastPathComponent c.current_file)
  let fn ← subElement (some un) "note" [("place", "foot")]
  putText fn (concatenate_lines r)

/-- The `catch-word` branch of `build_body` (lines 420-436). -/
def body_catchword (r : TextRegion) : M Unit := do
  let c ← mget
  if c.scene == none then
    let p ← newElement "p" []
    putText p "WARNING!, the following \x27head\x27 element might be misplaced, i.e.\nthere could be a better place."
    let cap ← newElement "head" []
    putText cap (concatenate_lines r)
    writeBody (some p)
    writeBody (some cap)
  else
    let cap ← subElement c.scene "div" [("type", "notes")]
    let type_str ← (match r.type with
      | none => mthrow PErr.typeError
      | some t => (pure ("type = " ++ t) : M String))
    let p1 ← subElement (some cap) "p" []
    putText p1 "WARNING!, the element isn\x27t placed correctly, it still needs a solution."
    let p2 ← subElement (some cap) "p" []
    putText p2 type_str
    let p3 ← subElement (some cap) "p" []
    putText p3 (concatenate_lines r)

/-- The final `else` branch of `build_body` (lines 438-448); both arms of
the source's prologue test use `self.__scene`. -/
def body_unknown (r : TextRegion) : M Unit := do
  let c ← mget
  let un ← (if c.prologue.isSome then subElement c.scene "div" [("type", "notes")]
            else subElement c.scene "div" [("type", "notes")])
  let type_str ← (match r.type with
    | none => mthrow PErr.typeError
    | some t => (pure ("type = " ++ t) : M String))
  let p1 ← subElement (some un) "p" []
  putText p1 UNKNOWN_WARNING
  let p2 ← subElement (some un) "p" []
  putText p2 type_str
  let p3 ← subElement (some un) "p" []
  putText p3 (concatenate_lines r)

/-- The `if`/`elif` chain of `Conversion.build_body` (everything before the
final end-of-stream flush).  Returns the updated act counter. -/
def body_branch (r : TextRegion) (act_number : Nat) : M Nat :=
  if r.type == some "header" then body_header r act_number
  else if r.type == some "heading" then do body_heading r; pure act_number
  else if r.type == some "TOC-entry" then do body_toc r; pure act_number
  else if r.type == some "signature-mark" then do body_signature r; pure act_number
  else if r.type == some "floating" then do body_floating r; pure act_number
  else if r.type == some "credit" || r.type == some "drop-capital" then do
    body_credit r; pure act_number
  else if r.type == some "paragraph" then do body_paragraph r; pure act_number
  else if r.type == some "caption" then do body_caption r; pure act_number
  else if r.type == some "footnote" then do body_footnote r; pure act_number
  else if r.type == some "catch-word" then do body_catchword r; pure act_number
  else do body_unknown r; pure act_number

/-- The tail of `Conversion.build_body`: the end-of-stream act flush and the
`previous_type` update.  `is_last` stands for the line-449 identity tests
`self.current_file is self.file_list[-1] and text_region is
self.page.text_region_list[-1]`; the driver (`bodyFor`) computes it as the
last-file flag conjoined with value equality of the current region and the
page's last region, which models the object identity (the list's entries
are the per-id dictionary objects, so same object = same value, and a
duplicated reading-order reference makes the test fire before the final
position too). -/
def body_epilogue (r : TextRegion) (is_last : Bool) : M Unit := do
  if is_last then
    let c ← mget
    writeBody c.act
  mmodify (fun c2 => { c2 with previous_type := r.type })

/-- `Conversion.build_body`. -/
def build_body (r : TextRegion) (is_last : Bool) (act_number : Nat) : M Nat := do
  let n ← body_branch r act_number
  body_epilogue r is_last
  pure n

/-! ### StreamDriver -/

/-- An entry of the processing trace: phase (`"front"` or `"body"`), region
id, region type.  This is observational instrumentation of the driver
loops; it does not influence the computation. -/
structure Ev where
  phase : String
  rid : Option String
  rtype : Option String
deriving Repr, DecidableEq

/-- Driver-level accumulators: the trace and the per-region error messages
("FEHLER" prints). -/
structure DriveAcc where
  trace : List Ev
  errors : List String
deriving Repr, DecidableEq

/-- How a whole run can fail: an exception out of `Conversion.__init__`
(uncaught), an exception caught by the top-level handler of `create_tei`
(logged; no output file is written), or the front loop spinning forever on
the final page (stream exhausted in front phase with no body marker). -/
inductive RunError where
  | uncaughtInit : PErr → RunError
  | topLevel : PErr → RunError
  | nonTermination : RunError
deriving Repr, DecidableEq

/-- The front-phase `for text_region in self.page.text_region_list` loop:
process regions with `build_front` (exceptions caught and logged) until one
whose type is in `BODY_MARKER`, at which point `write_front` runs (not
under the per-region `try`) and the loop breaks.  Returns the breaking
region, if any (the value of the loop variable at the break). -/
def frontFor (c : Conv) (acc : DriveAcc) :
    List TextRegion → Except PErr (Conv × DriveAcc × Option TextRegion)
  | [] => Except.ok (c, acc, none)
  | r :: rs =>
    if typeInMarker r then
      match write_front c with
      | Res.ok _ c1 => Except.ok (c1, acc, some r)
      | Res.err e _ => Except.error e
    else
      let acc1 : DriveAcc := { acc with trace := acc.trace ++ [⟨"front", r.id, r.type⟩] }
      match build_front r c with
      | Res.ok _ c1 => frontFor c1 acc1 rs
      | Res.err _ c1 =>
        frontFor c1
          { acc1 with errors := acc1.errors ++ [c.current_file ++ " FEHLER front"] }
          rs

/-- Outcome of one iteration of the front `while` loop. -/
inductive FrontStep where
  | failed : RunError → FrontStep
  | done : Conv → DriveAcc → Page → Bool → FrontStep
  | again : Conv → DriveAcc → Page → FrontStep
  | stuck : FrontStep

/-- Lines 196-198 of the source plus the `while` condition: check whether
the (possibly new) page starts with a body marker; if so flush the front
and break, otherwise loop again while still in front phase.  `advanced`
records whether this iteration consumed the next file. -/
def frontCheck (c : Conv) (acc : DriveAcc) (page : Page) (advanced : Bool) : FrontStep :=
  match page.text_region_list.head? with
  | none => FrontStep.failed (RunError.topLevel PErr.indexError)
  | some r0 =>
    if typeInMarker r0 then
      match write_front c with
      | Res.ok _ c1 => FrontStep.done c1 acc page advanced
      | Res.err e _ => FrontStep.failed (RunError.topLevel e)
    else
      if c.text_part == "front" then
        if advanced then FrontStep.again c acc page
        else FrontStep.stuck
      else FrontStep.done c acc page advanced

/-- One iteration of the front `while` body (lines 183-198): the region
loop, then the page advance when the loop variable `is` the page's last
region (line 192), then `frontCheck`.  `next` is the head of the remaining
file list.  The object-identity test `text_region is
self.page.text_region_list[-1]` is modelled as value equality: the list's
entries are the per-id objects of `text_region_dict`, so two positions hold
the same object exactly when they hold the same value (a region carries its
dictionary key as its `id`).  Without a break the loop variable is the last
element itself, so the test is true. -/
def frontPass (c : Conv) (acc : DriveAcc) (page : Page) (next : Option PageFile) :
    FrontStep :=
  match page.text_region_list with
  | [] => FrontStep.failed (RunError.topLevel PErr.indexError)
  | _ :: _ =>
    match frontFor c acc page.text_region_list with
    | Except.error e => FrontStep.failed (RunError.topLevel e)
    | Except.ok (c1, acc1, brokeAt) =>
      let isLast :=
        match brokeAt with
        | some r => page.text_region_list.getLast? == some r
        | none => true
      if isLast then
        match next with
        | none => frontCheck { c1 with current_file := "end" } acc1 page false
        | some pf =>
          match Page.make pf with
          | Except.error e => FrontStep.failed (RunError.topLevel e)
          | Except.ok newPage => frontCheck { c1 with current_file := pf.file } acc1 newPage true
      else frontCheck c1 acc1 page false

/-- The front `while self._text_part == self._FRONT` loop.  `again` without
a remaining file cannot occur (`frontCheck` only yields it after an
advance), and `stuck` is the loop running forever. -/
def frontLoop (c : Conv) (acc : DriveAcc) (page : Page) :
    List PageFile → Except RunError (Conv × DriveAcc × Page × List PageFile)
  | [] =>
    match frontPass c acc page none with
    | FrontStep.failed e => Except.error e
    | FrontStep.done c1 acc1 p1 _ => Except.ok (c1, acc1, p1, [])
    | FrontStep.again _ _ _ => Except.error RunError.nonTermination
    | FrontStep.stuck => Except.error RunError.nonTermination
  | pf :: fs =>
    match frontPass c acc page (some pf) with
    | FrontStep.failed e => Except.error e
    | FrontStep.done c1 acc1 p1 advanced =>
      Except.ok (c1, acc1, p1, if advanced then fs else pf :: fs)
    | FrontStep.again c1 acc1 p1 => frontLoop c1 acc1 p1 fs
    | FrontStep.stuck => Except.error RunError.nonTermination

/-- One region of the body loop: trace it, run `build_body` under the
per-region `try`/`except` (the old act counter is kept on failure). -/
def bodyStep (c : Conv) (acc : DriveAcc) (n : Nat) (r : TextRegion) (is_last : Bool) :
    Conv × DriveAcc × Nat :=
  let acc1 : DriveAcc := { acc with trace := acc.trace ++ [⟨"body", r.id, r.type⟩] }
  match build_body r is_last n c with
  | Res.ok n1 c1 => (c1, acc1, n1)
  | Res.err _ c1 =>
    (c1, { acc1 with errors := acc1.errors ++ [c.current_file ++ " FEHLER body"] }, n)

/-- The body-phase region loop.  `lastFile` says whether the current file
is the last of the run (`self.current_file is self.file_list[-1]`: glob
paths are pairwise-distinct objects, so the identity holds exactly at the
iterator's last position); `lastR` is `self.page.text_region_list[-1]`,
against which line 449 tests the loop variable by object identity — value
equality here, since the list's entries are the per-id dictionary objects
(a duplicated reading-order reference puts the same object, hence the same
value, at several positions and the test fires at every one of them). -/
def bodyFor (lastR : Option TextRegion) (c : Conv) (acc : DriveAcc) (n : Nat) :
    List TextRegion → Bool → Conv × DriveAcc × Nat
  | [], _ => (c, acc, n)
  | r :: rs, lastFile =>
    let s := bodyStep c acc n r (lastFile && (some r == lastR))
    bodyFor lastR s.1 s.2.1 s.2.2 rs lastFile

/-- The body `while self.current_file != "end"` loop (lines 202-211): all
regions of the current page, then the page advance; an empty region list
makes the `text_region_list[-1]` test raise, caught top-level. -/
def bodyLoop (c : Conv) (acc : DriveAcc) (n : Nat) (page : Page) :
    List PageFile → Except RunError (Conv × DriveAcc × Nat)
  | [] =>
    if c.current_file == "end" then Except.ok (c, acc, n)
    else
      let s := bodyFor page.text_region_list.getLast? c acc n page.text_region_list true
      match page.text_region_list with
      | [] => Except.error (RunError.topLevel PErr.indexError)
      | _ :: _ => Except.ok ({ s.1 with current_file := "end" }, s.2.1, s.2.2)
  | pf :: fs =>
    if c.current_file == "end" then Except.ok (c, acc, n)
    else
      let s := bodyFor page.text_region_list.getLast? c acc n page.text_region_list false
      match page.text_region_list with
      | [] => Except.error (RunError.topLevel PErr.indexError)
      | _ :: _ =>
        match Page.make pf with
        | Except.error e => Except.error (RunError.topLevel e)
        | Except.ok newPage =>
          bodyLoop { s.1 with current_file := pf.file } s.2.1 s.2.2 newPage fs

/-- The observable outcome of a completed run: the subtrees written before
`body` opened, whether it opened, the subtrees written inside it, the error
log, the debug prints, the driver trace, and the final state. -/
structure RunResult where
  frontWritten : List Tree
  bodyOpened : Bool
  bodyWritten : List Tree
  errors : List String
  debug : List String
  trace : List Ev
  final : Conv

/-- The initial `Conversion` state (`__init__`), given the first file. -/
def Conv.init (file0 : String) : Conv :=
  { store := [], frontWritten := [], bodyWritten := [], debug := [],
    text_part := "front", previous_type := none, front := none,
    title_page := none, is_title_page_created := false, div_preface := none,
    prologue := none, act := none, scene := none, stage := none,
    cast_list := none, cast_item := none, sp_grp := none, sp := none,
    set_div := none, scenario_tag := none, current_file := file0 }

/-- `Conversion.create_tei` from the `with xf.element("text")` block on
(the header envelope writes are constant): the initial body-marker check
(line 179, `IndexError` on an empty resolved region list is caught by the
top-level handler), the front block, then the body block. -/
def create_tei (c0 : Conv) (page0 : Page) (files : List PageFile) :
    Except RunError RunResult :=
  match page0.text_region_list.head? with
  | none => Except.error (RunError.topLevel PErr.indexError)
  | some r0 =>
    let c1 := if typeInMarker r0 then { c0 with text_part := "body" } else c0
    let frontRes :=
      if c1.text_part == "front" then
        let alloc := c1.store.newElem "front" []
        frontLoop { c1 with store := alloc.1, front := some alloc.2 }
          { trace := [], errors := [] } page0 files
      else Except.ok (c1, ({ trace := [], errors := [] } : DriveAcc), page0, files)
    match frontRes with
    | Except.error e => Except.error e
    | Except.ok (c2, acc2, page2, files2) =>
      if c2.text_part == "body" then
        match bodyLoop c2 acc2 0 page2 files2 with
        | Except.error e => Except.error e
        | Except.ok (c3, acc3, _) =>
          Except.ok { frontWritten := c3.frontWritten, bodyOpened := true,
                      bodyWritten := c3.bodyWritten, errors := acc3.errors,
                      debug := c3.debug, trace := acc3.trace, final := c3 }
      else
        Except.ok { frontWritten := c2.frontWritten, bodyOpened := false,
                    bodyWritten := c2.bodyWritten, errors := acc2.errors,
                    debug := c2.debug, trace := acc2.trace, final := c2 }

/-- The file ordering of `Conversion.__init__` (`self.file_list.sort()`,
Python string comparison of the paths). -/
def fileLe (a b : PageFile) : Prop := strLe a.file b.file = true

instance : DecidableRel fileLe := fun a b => by unfold fileLe; infer_instance

/-- `glob` result sorted: `self.file_list`. -/
def file_list (inputs : List PageFile) : List PageFile := inputs.insertionSort fileLe

/-- `Conversion(folder).create_tei(out)`: sort the files, load the first
page in `__init__` (failures there are uncaught), then run `create_tei`.
An empty folder makes `__init__` call `Page("end")`, which fails parsing. -/
def Conversion.run (inputs : List PageFile) : Except RunError RunResult :=
  match file_list inputs with
  | [] => Except.error (RunError.uncaughtInit PErr.parseError)
  | p0 :: rest =>
    match Page.make p0 with
    | Except.error e => Except.error (RunError.uncaughtInit e)
    | Except.ok page0 => create_tei (Conv.init p0.file) page0 rest

/-! ### Observations on run results -/

/-- Is this serialized subtree an act (`div` with `type="act"`)? -/
def isActTree (t : Tree) : Bool := t.tag == "div" && t.attrs == [("type", "act")]

/-- Number of acts among the written subtrees. -/
def numActs (ts : List Tree) : Nat := ts.countP isActTree

/-- Number of `header`-typed regions among a trace's body events. -/
def headerBodyCount (tr : List Ev) : Nat :=
  tr.countP (fun ev => ev.phase == "body" && ev.rtype == some "header")

/-- Number of `stage` children of node `i` in a store. -/
def stageChildCount (st : Store) (i : Nat) : Nat :=
  match st.read? i with
  | none => 0
  | some nd =>
    nd.children.countP (fun j =>
      match st.read? j with
      | none => false
      | some cnd => cnd.tag == "stage")

/-- First arena index carrying a given tag. -/
def idxOfTagAux (tag : String) : Nat → List Node → Option Nat
  | _, [] => none
  | i, nd :: nds => if nd.tag == tag then some i else idxOfTagAux tag (i + 1) nds

/-- First arena index carrying a given tag. -/
def idxOfTag (st : Store) (tag : String) : Option Nat := idxOfTagAux tag 0 st

/-! ### Concrete examples -/

/-- A region list used by several concrete checks below. -/
def c1Regs : List TextRegion :=
  [{ id := some "r1", type := some "other", line := [], x := 0, y := 0 },
   { id := some "r2", type := some "header", line := [], x := 0, y := 5 },
   { id := some "r3", type := some "paragraph", line := [], x := 0, y := 9 }]

/-- Concrete raw lines whose y-coordinates are `[30, 10, 20]`. -/
def c7Raw : List RawLine :=
  [{ coords := some "0,30", hasGlyph := false, glyphCoords := none, alts := [] },
   { coords := some "0,10", hasGlyph := false, glyphCoords := none, alts := [] },
   { coords := some "0,20", hasGlyph := false, glyphCoords := none, alts := [] }]

/-- The collected (unsorted) lines for `c7Raw`. -/
def c7Unsorted : List TextLine :=
  [{ x := 0, y := 30, alts := [] }, { x := 0, y := 10, alts := [] },
   { x := 0, y := 20, alts := [] }]

/-- The resolved (sorted) lines for `c7Raw`. -/
def c7Sorted : List TextLine :=
  [{ x := 0, y := 10, alts := [] }, { x := 0, y := 20, alts := [] },
   { x := 0, y := 30, alts := [] }]

/-- A line with alternatives carrying indices `"2"`, `"10"`, `"1"` (string
ordering puts `"1"` before `"10"` before `"2"`). -/
def c8Line : TextLine :=
  { x := 0, y := 0,
    alts := [{ index := some "2", unicode := "two" },
             { index := none, unicode := "ignored" },
             { index := some "10", unicode := "ten" },
             { index := some "1", unicode := "one" }] }

/-- A raw line with a plain polygon and one indexed transcription. -/
def mkRawLine (txt : String) : RawLine :=
  { coords := some "0,0", hasGlyph := false, glyphCoords := none,
    alts := [{ index := some "0", unicode := txt }] }

/-- A one-line raw region. -/
def mkRawRegion (rid ty txt : String) : RawRegion :=
  { id := some rid, type := some ty, lines := [mkRawLine txt] }

/-- Stage-direction children texts of node `i`, in child order. -/
def stageChildTexts (st : Store) (i : Nat) : List (Option String) :=
  match st.read? i with
  | none => []
  | some nd =>
    nd.children.filterMap (fun j =>
      match st.read? j with
      | none => none
      | some cnd => if cnd.tag == "stage" then some cnd.text else none)

/-- Scenario 1 of the spec, page 1: one `other` region, no ordering list. -/
def c2Page1 : PageFile :=
  { file := "p1", readingOrder := [], regions := [mkRawRegion "r1" "other" "Hello"] }

/-- Scenario 1 of the spec, page 2: one `header` region, no ordering list. -/
def c2Page2 : PageFile :=
  { file := "p2", readingOrder := [], regions := [mkRawRegion "r2" "header" "Act One"] }

/-- A page whose front phase breaks at a mid-page body marker (`r2`), with a
front-consumed region (`r1`) before it and another region after it. -/
def c3Page : PageFile :=
  { file := "p1", readingOrder := [some "r1", some "r2", some "r3"],
    regions := [mkRawRegion "r1" "catch-word" "Titel", mkRawRegion "r2" "header" "Akt",
                mkRawRegion "r3" "paragraph" "Text"] }

/-- A page with one header followed by a paragraph whose processing raises
(no scene and no speech are open), so the end-of-stream act flush is
skipped. -/
def c4Page : PageFile :=
  { file := "p1", readingOrder := [some "r1", some "r2"],
    regions := [mkRawRegion "r1" "header" "Akt", mkRawRegion "r2" "paragraph" "Text"] }

/-- A region whose single line sits in a region with glyphs but carries no
glyph coordinates: every line is skipped, so the region yields zero usable
lines (`IndexError` in `TextRegion.__init__`). -/
def c5BadRegion : RawRegion :=
  { id := some "r2", type := some "paragraph",
    lines := [{ coords := some "0,5", hasGlyph := true, glyphCoords := none, alts := [] }] }

/-- A page with a sound region before and after the geometry-failing one. -/
def c5Page : PageFile :=
  { file := "p1", readingOrder := [some "r1", some "r2", some "r3"],
    regions := [mkRawRegion "r1" "other" "fine", c5BadRegion,
                mkRawRegion "r3" "paragraph" "later"] }

/-- A body-phase page reaching a caption (`CapB`) whose previous region is a
normal-scenario caption (`CapA`, itself after a credit) while a speech is
open. -/
def c6Page : PageFile :=
  { file := "p1",
    readingOrder := [some "r1", some "r2", some "r3", some "r4", some "r5"],
    regions := [mkRawRegion "r1" "header" "Akt", mkRawRegion "r2" "heading" "Szene",
                mkRawRegion "r3" "credit" "Hans.", mkRawRegion "r4" "caption" "CapA",
                mkRawRegion "r5" "caption" "CapB"] }

/-- The state after the caption branch appends a stage direction with the
region text under `parent` and sets the scenario marker to normal. -/
def appendStageState (c : Conv) (parent : Nat) (txt : String) (newPrev : Option String) :
    Conv :=
  { c with store := ((c.store.subElem parent "stage" []).1).setTextAt c.store.length txt,
           scenario_tag := some "normal", previous_type := newPrev }

/-- A caption region used to instantiate the caption-routing theorem. -/
def c6DemoRegion : TextRegion :=
  { id := some "r", type := some "caption", line := [], x := 0, y := 0 }

/-- A body-phase state with an open scene at index 0, previous type
`caption` and scenario marker `normal`. -/
def c6DemoConv : Conv :=
  { Conv.init "p1" with
      store := [{ tag := "div", attrs := [("type", "scene")], text := none, children := [] }],
      scene := some 0, previous_type := some "caption", scenario_tag := some "normal" }

/-- Two sound one-page files with distinct names, for permutation checks. -/
def c9PageA : PageFile :=
  { file := "a.xml", readingOrder := [some "r1"],
    regions := [mkRawRegion "r1" "header" "Akt"] }

/-- Second file for the permutation check. -/
def c9PageB : PageFile :=
  { file := "b.xml", readingOrder := [some "r2"],
    regions := [mkRawRegion "r2" "heading" "Szene"] }

/-- A method that leaves the front reference, the front output stream and
the current file name untouched (every build method does). -/
def KeepsDriver (m : M α) : Prop :=
  ∀ c1, (m c1).state.front = c1.front ∧ (m c1).state.frontWritten = c1.frontWritten
    ∧ (m c1).state.current_file = c1.current_file

/-! ### Act bookkeeping for the body phase -/

/-- Node `i` of `st` exists and carries the given tag and attributes. -/
def NodeShape (st : Store) (i : Nat) (tg : String) (ats : List (String × String)) : Prop :=
  ∃ nd, st.read? i = some nd ∧ nd.tag = tg ∧ nd.attrs = ats

/-- Every node of `st` survives into `st2` with its tag and attributes. -/
def StoreExtends (st st2 : Store) : Prop :=
  ∀ i nd, st.read? i = some nd →
    ∃ nd2, st2.read? i = some nd2 ∧ nd2.tag = nd.tag ∧ nd2.attrs = nd.attrs

/-- The act-counting invariant of the body phase: the open act (resp.
prologue) reference, when set, points at a `div` of type `act` (resp.
`prologue`), and the acts flushed to the body stream so far plus the open
one equal the act counter. -/
def ActInv (c : Conv) (n : Nat) : Prop :=
  (∀ a, c.act = some a → NodeShape c.store a "div" [("type", "act")])
  ∧ (∀ p, c.prologue = some p → NodeShape c.store p "div" [("type", "prologue")])
  ∧ numActs c.bodyWritten + (if c.act.isSome then 1 else 0) = n

/-- A method that cannot disturb the act-counting invariant. -/
def KeepsActInv (m : M α) : Prop :=
  ∀ c n, ActInv c n → ActInv ((m c).state) n

/-- An error-free two-act input: a header, a scene heading, a second
header. -/
def c4GoodPage : PageFile :=
  { file := "p1", readingOrder := [some "r1", some "r2", some "r3"],
    regions := [mkRawRegion "r1" "header" "Akt 1", mkRawRegion "r2" "heading" "Szene",
                mkRawRegion "r3" "header" "Akt 2"] }

/-- The page resolved from the two-act input. -/
def c4GoodPg : Page :=
  match Page.make c4GoodPage with
  | Except.ok p => p
  | Except.error _ => { file := "", reading_order := [], text_region_list := [] }

/-- The first resolved region of the two-act input. -/
def c4GoodR0 : TextRegion :=
  c4GoodPg.text_region_list.headD { id := none, type := none, line := [], x := 0, y := 0 }

/-- The run result of the two-act input. -/
def c4GoodRes : RunResult :=
  match Conversion.run [c4GoodPage] with
  | Except.ok r => r
  | Except.error _ =>
    { frontWritten := [], bodyOpened := false, bodyWritten := [],
      errors := [], debug := [], trace := [], final := Conv.init "" }

/-! ### Properties of the string ordering -/

theorem charListLe_total : ∀ a b, charListLe a b = true ∨ charListLe b a = true
  | [], _ => Or.inl rfl
  | _ :: _, [] => Or.inr rfl
  | a :: as, b :: bs => by
    rcases lt_trichotomy a b with hab | hab | hab
    · left; simp [charListLe, hab]
    · subst hab
      rcases charListLe_total as bs with h | h
      · left; simp [charListLe, h]
      · right; simp [charListLe, h]
    · right; simp [charListLe, hab]

theorem charListLe_trans :
    ∀ a b c, charListLe a b = true → charListLe b c = true → charListLe a c = true
  | [], _, _ => by intro _ _; rfl
  | _ :: _, [], _ => by intro h _; simp [charListLe] at h
  | _ :: _, _ :: _, [] => by intro _ h; simp [charListLe] at h
  | a :: as, b :: bs, c :: cs => by
    intro h1 h2
    rcases lt_trichotomy a b with hab | hab | hab
    · rcases lt_trichotomy b c with hbc | hbc | hbc
      · simp [charListLe, lt_trans hab hbc]
      · subst hbc; simp [charListLe, hab]
      · simp [charListLe, hbc, not_lt_of_lt hbc] at h2
    · subst hab
      rcases lt_trichotomy a c with hac | hac | hac
      · simp [charListLe, hac]
      · subst hac
        simp only [charListLe, lt_irrefl, if_false] at h1 h2 ⊢
        exact charListLe_trans as bs cs h1 h2
      · simp [charListLe, hac, not_lt_of_lt hac] at h2
    · simp [charListLe, hab, not_lt_of_lt hab] at h1

theorem charListLe_antisymm :
    ∀ a b, charListLe a b = true → charListLe b a = true → a = b
  | [], [] => by intro _ _; rfl
  | [], _ :: _ => by intro _ h; simp [charListLe] at h
  | _ :: _, [] => by intro h _; simp [charListLe] at h
  | a :: as, b :: bs => by
    intro h1 h2
    rcases lt_trichotomy a b with hab | hab | hab
    · simp [charListLe, hab, not_lt_of_lt hab] at h2
    · subst hab
      simp only [charListLe, lt_irrefl, if_false] at h1 h2
      rw [charListLe_antisymm as bs h1 h2]
    · simp [charListLe, hab, not_lt_of_lt hab] at h1

theorem strLe_total (a b : String) : strLe a b = true ∨ strLe b a = true :=
  charListLe_total a.data b.data

theorem strLe_trans {a b c : String} (h1 : strLe a b = true) (h2 : strLe b c = true) :
    strLe a c = true :=
  charListLe_trans a.data b.data c.data h1 h2

theorem strLe_antisymm {a b : String} (h1 : strLe a b = true) (h2 : strLe b a = true) :
    a = b := by
  cases a; cases b
  exact congrArg String.mk (charListLe_antisymm _ _ h1 h2)

/-! ### C1: reading-order rule -/

theorem text_region_dict_lookup_id {regs : List TextRegion} {k : Option String}
    {r : TextRegion} (h : text_region_dict_lookup regs k = some r) : r.id = k := by
  have hmem := List.mem_of_getLast?_eq_some h
  have := (List.mem_filter.mp hmem).2
  simpa using this

theorem filterMap_lookup_map_id (regs : List TextRegion) :
    ∀ ks : List (Option String),
      (ks.filterMap (text_region_dict_lookup regs)).map TextRegion.id
        = ks.filter (fun k => (text_region_dict_lookup regs k).isSome)
  | [] => by simp
  | k :: ks => by
    cases h : text_region_dict_lookup regs k with
    | none =>
      simp [List.filterMap_cons, h, List.filter_cons, filterMap_lookup_map_id regs ks]
    | some r =>
      have hid := text_region_dict_lookup_id h
      simp [List.filterMap_cons, h, List.filter_cons, filterMap_lookup_map_id regs ks, hid]

/-- C1: for every page whose region mapping is non-empty and that supplies a
group-ordering list, the resolved region list is exactly the subset of that
list's identifiers present in the mapping, in the list's order; regions
present in the mapping but absent from the ordering list are dropped, never
appended. -/
theorem C1_reading_order (regs : List TextRegion) (ro : List (Option String))
    (hne : regs ≠ []) :
    (sort_text_region regs ro).map TextRegion.id
        = ro.filter (fun k => (text_region_dict_lookup regs k).isSome)
      ∧ ∀ r ∈ sort_text_region regs ro, r.id ∈ ro := by
  have hemp : regs.isEmpty = false := by
    cases regs with
    | nil => exact absurd rfl hne
    | cons a l => rfl
  constructor
  · rw [sort_text_region, hemp]
    simp only [Bool.false_eq_true, if_false]
    exact filterMap_lookup_map_id regs ro
  · intro r hr
    rw [sort_text_region, hemp] at hr
    simp only [Bool.false_eq_true, if_false] at hr
    obtain ⟨k, hk, hlk⟩ := List.mem_filterMap.mp hr
    rw [text_region_dict_lookup_id hlk]
    exact hk

/-- Witness for C1 at a concrete page: ordering list `[r3, r9, r1]` with
mapping `{r1, r2, r3}` resolves to `[r3, r1]` (`r9` absent from the mapping
is skipped, `r2` absent from the list is dropped). -/
theorem C1_reading_order_witness :
    c1Regs ≠ [] ∧
      ((sort_text_region c1Regs [some "r3", some "r9", some "r1"]).map TextRegion.id
          = [some "r3", some "r9", some "r1"].filter
              (fun k => (text_region_dict_lookup c1Regs k).isSome)
        ∧ ∀ r ∈ sort_text_region c1Regs [some "r3", some "r9", some "r1"],
            r.id ∈ [some "r3", some "r9", some "r1"]) :=
  ⟨by decide, C1_reading_order c1Regs [some "r3", some "r9", some "r1"] (by decide)⟩

/-! ### C7: line ordering within a region -/

/-- C7: for every region, the resolved line order is non-decreasing in the
computed y-reference, and lines with equal y keep their original document
order (the sort is stable): the sorted list restricted to any fixed y-value
equals the collected list restricted to that value. -/
theorem C7_line_order (rls : List RawLine) (l0 lines : List TextLine)
    (h0 : get_lines_raw rls = Except.ok l0) (h : get_lines rls = Except.ok lines) :
    lines.Pairwise yLe
      ∧ ∀ c : Int, lines.filter (fun l => l.y == c) = l0.filter (fun l => l.y == c) := by
  have hlines : lines = l0.insertionSort yLe := by
    rw [get_lines, h0] at h
    simp only [Except.map] at h
    exact (Except.ok.injEq _ _).mp h |>.symm
  subst hlines
  constructor
  · exact List.sorted_insertionSort yLe l0
  · intro c
    set p : TextLine → Bool := fun l => l.y == c with hp
    have hpw : (l0.filter p).Pairwise yLe := by
      apply List.pairwise_of_forall_mem_list
      intro a ha b hb
      have ha' := (List.mem_filter.mp ha).2
      have hb' := (List.mem_filter.mp hb).2
      simp only [hp, beq_iff_eq] at ha' hb'
      unfold yLe
      omega
    have hsub : List.Sublist (l0.filter p) (l0.insertionSort yLe) :=
      List.sublist_insertionSort hpw (List.filter_sublist l0)
    have hsub2 : List.Sublist (l0.filter p) ((l0.insertionSort yLe).filter p) := by
      have hself : (l0.filter p).filter p = l0.filter p := by
        apply List.filter_eq_self.mpr
        intro a ha
        exact (List.mem_filter.mp ha).2
      have hstep := hsub.filter p
      rwa [hself] at hstep
    have hlen : ((l0.insertionSort yLe).filter p).length = (l0.filter p).length := by
      have hperm := List.perm_insertionSort yLe l0
      rw [← List.countP_eq_length_filter, ← List.countP_eq_length_filter]
      exact hperm.countP_eq p
    exact (hsub2.eq_of_length hlen.symm).symm

/-- Witness for C7 at a region whose line y-values are `[30, 10, 20]`. -/
theorem C7_line_order_witness :
    c7Sorted.Pairwise yLe
      ∧ c7Sorted.filter (fun l => l.y == (10 : Int))
          = c7Unsorted.filter (fun l => l.y == (10 : Int)) :=
  ⟨(C7_line_order c7Raw c7Unsorted c7Sorted rfl rfl).1,
   (C7_line_order c7Raw c7Unsorted c7Sorted rfl rfl).2 10⟩

/-! ### C8: canonical line text -/

/-- C8: the canonical line text is computed by collecting exactly the
transcription alternatives that carry an explicit `index` attribute, sorting
them by index under string (lexicographic) ordering, and returning the text
of the smallest; the empty string when no such alternative exists. -/
theorem C8_canonical_text (l : TextLine) :
    (TextLine.indexed_pairs l = [] → l.get_text = "")
      ∧ (TextLine.indexed_pairs l ≠ [] →
          ∃ p ∈ TextLine.indexed_pairs l,
            l.get_text = p.2 ∧ ∀ q ∈ TextLine.indexed_pairs l, strLe p.1 q.1 = true) := by
  constructor
  · intro hnil
    rw [TextLine.get_text, hnil]
    rfl
  · intro hne
    haveI : IsTotal (String × String) idxLe := ⟨fun a b => strLe_total a.1 b.1⟩
    haveI : IsTrans (String × String) idxLe := ⟨fun _ _ _ h1 h2 => strLe_trans h1 h2⟩
    rcases hs : (TextLine.indexed_pairs l).insertionSort idxLe with _ | ⟨a, rest⟩
    · exfalso
      apply hne
      have := List.perm_insertionSort idxLe (TextLine.indexed_pairs l)
      rw [hs] at this
      exact this.symm.eq_nil
    · refine ⟨a, ?_, ?_, ?_⟩
      · have : a ∈ (TextLine.indexed_pairs l).insertionSort idxLe := by
          rw [hs]; exact List.mem_cons_self a rest
        exact (List.mem_insertionSort idxLe).mp this
      · rw [TextLine.get_text, hs]
      · intro q hq
        have hq' : q ∈ (TextLine.indexed_pairs l).insertionSort idxLe :=
          (List.mem_insertionSort idxLe).mpr hq
        rw [hs] at hq'
        rcases List.mem_cons.mp hq' with h | h
        · subst h
          rcases strLe_total q.1 q.1 with h' | h' <;> exact h'
        · have hpw := List.sorted_insertionSort idxLe (TextLine.indexed_pairs l)
          rw [hs] at hpw
          exact (List.pairwise_cons.mp hpw).1 q h

/-- Witness for C8 at a line with indices `["2", "10", "1"]`. -/
theorem C8_canonical_text_witness :
    TextLine.indexed_pairs c8Line ≠ [] ∧
      ∃ p ∈ TextLine.indexed_pairs c8Line,
        c8Line.get_text = p.2 ∧ ∀ q ∈ TextLine.indexed_pairs c8Line, strLe p.1 q.1 = true :=
  ⟨by decide, (C8_canonical_text c8Line).2 (by decide)⟩

/-! ### C10: empty line texts vanish from the region text -/

/-- C10: the region text is the newline-join of the lines' canonical texts
with empty texts filtered out, so a line whose canonical text is empty
contributes neither text nor a blank line. -/
theorem C10_empty_lines_dropped (rid rty : Option String) (x y : Int)
    (pre post : List TextLine) (l : TextLine) (hl : l.get_text = "") :
    concatenate_lines { id := rid, type := rty, line := pre ++ l :: post, x := x, y := y }
      = concatenate_lines { id := rid, type := rty, line := pre ++ post, x := x, y := y } := by
  simp [concatenate_lines, List.map_append, List.filter_append, hl]

/-- Witness for C10: a middle line with no indexed alternative vanishes from
the joined region text. -/
theorem C10_empty_lines_dropped_witness :
    TextLine.get_text { x := 0, y := 5, alts := [{ index := none, unicode := "zz" }] } = ""
      ∧ concatenate_lines
          { id := some "r", type := some "other",
            line := [{ x := 0, y := 0, alts := [{ index := some "0", unicode := "aa" }] },
                     { x := 0, y := 5, alts := [{ index := none, unicode := "zz" }] },
                     { x := 0, y := 9, alts := [{ index := some "0", unicode := "bb" }] }],
            x := 0, y := 0 }
        = concatenate_lines
          { id := some "r", type := some "other",
            line := [{ x := 0, y := 0, alts := [{ index := some "0", unicode := "aa" }] },
                     { x := 0, y := 9, alts := [{ index := some "0", unicode := "bb" }] }],
            x := 0, y := 0 } :=
  ⟨by decide,
   C10_empty_lines_dropped (some "r") (some "other") 0 0
     [{ x := 0, y := 0, alts := [{ index := some "0", unicode := "aa" }] }]
     [{ x := 0, y := 9, alts := [{ index := some "0", unicode := "bb" }] }]
     { x := 0, y := 5, alts := [{ index := none, unicode := "zz" }] } (by decide)⟩

/-! ### C2: the empty-resolution degenerate case -/

/-- C2 counterexample: on the spec's degenerate scenario (two pages whose
single regions are dropped by the empty-ordering rule) the run does not
produce a bare envelope document — the empty resolved region list raises an
`IndexError` at `text_region_list[0]`, caught by the top-level handler, and
no output is written at all. -/
theorem C2_counterexample :
    Conversion.run [c2Page1, c2Page2] = Except.error (RunError.topLevel PErr.indexError) :=
  rfl

/-- C2 amended: when the first page's resolved region list is empty, the run
aborts via the top-level handler (`IndexError` on `text_region_list[0]`);
it terminates without crashing the interpreter but writes no output
document, bare envelope included. -/
theorem C2_empty_resolution_aborts (inputs : List PageFile) (p0 : PageFile)
    (rest : List PageFile) (pg : Page)
    (hfl : file_list inputs = p0 :: rest) (hmk : Page.make p0 = Except.ok pg)
    (hempty : pg.text_region_list = []) :
    Conversion.run inputs = Except.error (RunError.topLevel PErr.indexError) := by
  unfold Conversion.run
  rw [hfl]
  simp only [hmk]
  unfold create_tei
  rw [hempty]
  rfl

/-- Witness for C2 at the degenerate scenario input. -/
theorem C2_empty_resolution_aborts_witness :
    file_list [c2Page1, c2Page2] = [c2Page1, c2Page2]
      ∧ Page.make c2Page1
          = Except.ok { file := "p1", reading_order := [], text_region_list := [] }
      ∧ Conversion.run [c2Page1, c2Page2]
          = Except.error (RunError.topLevel PErr.indexError) :=
  ⟨rfl, rfl,
   C2_empty_resolution_aborts [c2Page1, c2Page2] c2Page1 [c2Page2]
     { file := "p1", reading_order := [], text_region_list := [] } rfl rfl rfl⟩

/-! ### C5: geometry errors abort the run -/

theorem glyphCollect_all_none (ls : List RawLine)
    (h : ∀ l ∈ ls, l.glyphCoords = none) :
    get_lines_raw.glyphCollect ls = Except.ok [] := by
  induction ls with
  | nil => rfl
  | cons l ls ih =>
    have hl := h l (List.mem_cons_self l ls)
    rw [get_lines_raw.glyphCollect, hl]
    exact ih (fun x hx => h x (List.mem_cons_of_mem l hx))

theorem TextRegion.make_error_of_skipped (r : RawRegion)
    (hg : r.lines.any (fun l => l.hasGlyph) = true)
    (hnone : ∀ l ∈ r.lines, l.glyphCoords = none) :
    TextRegion.make r = Except.error PErr.indexError := by
  unfold TextRegion.make get_lines get_lines_raw
  rw [hg]
  simp [glyphCollect_all_none r.lines hnone, Except.map]

theorem mapExcept_error_of_mem {α β : Type} (f : α → Except PErr β) (l : List α)
    (x : α) (hx : x ∈ l) (he : ∃ e, f x = Except.error e) :
    ∃ e', mapExcept f l = Except.error e' := by
  induction l with
  | nil => cases hx
  | cons a l ih =>
    rcases List.mem_cons.mp hx with rfl | hmem
    · obtain ⟨e, he⟩ := he
      exact ⟨e, by rw [mapExcept, he]⟩
    · cases hfa : f a with
      | error e => exact ⟨e, by rw [mapExcept, hfa]⟩
      | ok b =>
        obtain ⟨e', h'⟩ := ih hmem
        exact ⟨e', by rw [mapExcept, hfa, h']⟩

theorem Page.make_error_of_region (pf : PageFile) (r : RawRegion) (hr : r ∈ pf.regions)
    (hlines : r.lines ≠ []) (herr : ∃ e, TextRegion.make r = Except.error e) :
    ∃ e', Page.make pf = Except.error e' := by
  have hmem : r ∈ pf.regions.filter (fun r => !r.lines.isEmpty) :=
    List.mem_filter.mpr ⟨hr, by simpa using hlines⟩
  obtain ⟨e', hm⟩ := mapExcept_error_of_mem TextRegion.make _ r hmem herr
  refine ⟨e', ?_⟩
  unfold Page.make
  rw [hm]

/-- C5 counterexample: a region yielding zero usable lines does not get
skipped per-region with processing continuing; instead the whole run aborts
(here uncaught, since the failure happens while `Conversion.__init__` loads
the first page), and the sound regions before and after it are never
processed. -/
theorem C5_counterexample :
    Conversion.run [c5Page] = Except.error (RunError.uncaughtInit PErr.indexError) :=
  rfl

/-- C5 amended: a geometry error (here: a region with glyph geometry whose
lines all lack glyph coordinates, so every line is skipped and
`TextRegion.__init__` raises `IndexError`) is raised during `Page`
construction, outside the per-region handler of the transducer loop.  When
the failing region sits on the first page the error escapes
`Conversion.__init__` uncaught and the run produces nothing; no region of
the run is processed. -/
theorem C5_geometry_error_aborts (inputs : List PageFile) (p0 : PageFile)
    (rest : List PageFile) (r : RawRegion)
    (hfl : file_list inputs = p0 :: rest)
    (hr : r ∈ p0.regions) (hlines : r.lines ≠ [])
    (hg : r.lines.any (fun l => l.hasGlyph) = true)
    (hnone : ∀ l ∈ r.lines, l.glyphCoords = none) :
    ∃ e, Conversion.run inputs = Except.error (RunError.uncaughtInit e) := by
  obtain ⟨e', hm⟩ := Page.make_error_of_region p0 r hr hlines
    ⟨PErr.indexError, TextRegion.make_error_of_skipped r hg hnone⟩
  refine ⟨e', ?_⟩
  unfold Conversion.run
  rw [hfl]
  simp only [hm]

/-- Witness for C5 at the concrete failing page. -/
theorem C5_geometry_error_aborts_witness :
    file_list [c5Page] = [c5Page]
      ∧ ∃ e, Conversion.run [c5Page] = Except.error (RunError.uncaughtInit e) :=
  ⟨rfl,
   C5_geometry_error_aborts [c5Page] c5Page [] c5BadRegion rfl (by decide) (by decide)
     (by decide) (by decide)⟩

/-! ### C9: determinism / traversal-order independence -/

/-- C9: the pipeline output does not depend on the enumeration order of the
input files (the only externally-ordered traversal): for any two
enumerations of the same files (with distinct file names, as paths are),
the run produces identical output, because `Conversion.__init__` sorts the
file list. -/
theorem C9_order_independent (ps qs : List PageFile)
    (hperm : ps.Perm qs) (hnodup : (ps.map PageFile.file).Nodup) :
    Conversion.run ps = Conversion.run qs := by
  haveI : IsTotal PageFile fileLe := ⟨fun a b => strLe_total a.file b.file⟩
  haveI : IsTrans PageFile fileLe := ⟨fun _ _ _ h1 h2 => strLe_trans h1 h2⟩
  have hfl : file_list ps = file_list qs := by
    have hps : (file_list ps).Pairwise fileLe := List.sorted_insertionSort fileLe ps
    have hqs : (file_list qs).Pairwise fileLe := List.sorted_insertionSort fileLe qs
    have hp1 : (file_list ps).Perm ps := List.perm_insertionSort fileLe ps
    have hq1 : (file_list qs).Perm qs := List.perm_insertionSort fileLe qs
    have hperm2 : (file_list ps).Perm (file_list qs) :=
      (hp1.trans hperm).trans hq1.symm
    have hnodup1 : ((file_list ps).map PageFile.file).Nodup :=
      ((hp1.map PageFile.file).nodup_iff).mpr hnodup
    have hnodup2 : ((file_list qs).map PageFile.file).Nodup :=
      ((hperm2.map PageFile.file).nodup_iff).mp hnodup1
    have hne1 : (file_list ps).Pairwise (fun a b => a.file ≠ b.file) :=
      List.pairwise_map.mp hnodup1
    have hne2 : (file_list qs).Pairwise (fun a b => a.file ≠ b.file) :=
      List.pairwise_map.mp hnodup2
    haveI : IsAntisymm PageFile (fun a b => fileLe a b ∧ a.file ≠ b.file) :=
      ⟨fun a b h1 h2 => absurd (strLe_antisymm h1.1 h2.1) h1.2⟩
    exact List.eq_of_perm_of_sorted hperm2 (hps.and hne1) (hqs.and hne2)
  unfold Conversion.run
  rw [hfl]

/-- Witness for C9: the two-file input in either enumeration order gives the
same run. -/
theorem C9_order_independent_witness :
    Conversion.run [c9PageB, c9PageA] = Conversion.run [c9PageA, c9PageB] :=
  C9_order_independent [c9PageB, c9PageA] [c9PageA, c9PageB]
    (List.Perm.swap c9PageA c9PageB []) (by decide)

/-! ### Preservation facts about the build methods -/

theorem keepsDriver_bind {α β : Type} {m : M α} {k : α → M β} (hm : KeepsDriver m)
    (hk : ∀ a, KeepsDriver (k a)) : KeepsDriver (m >>= k) := by
  intro c1
  have hmc := hm c1
  show ((M.bind m k) c1).state.front = _ ∧ ((M.bind m k) c1).state.frontWritten = _
    ∧ ((M.bind m k) c1).state.current_file = _
  unfold M.bind
  cases hres : m c1 with
  | ok a c2 =>
    rw [hres] at hmc
    have hk2 := (hk a) c2
    simp only [Res.state] at hmc
    exact ⟨hk2.1.trans hmc.1, hk2.2.1.trans hmc.2.1, hk2.2.2.trans hmc.2.2⟩
  | err e c2 =>
    rw [hres] at hmc
    simp only [Res.state] at hmc
    exact hmc

theorem keepsDriver_subElement (p : Option Nat) (t : String)
    (a : List (String × String)) : KeepsDriver (subElement p t a) := by
  intro c1
  cases p <;> exact ⟨rfl, rfl, rfl⟩

theorem keepsDriver_writeBody (x : Option Nat) : KeepsDriver (writeBody x) := by
  intro c1
  cases x <;> exact ⟨rfl, rfl, rfl⟩

theorem keepsDriver_ite {α : Type} {c : Prop} [Decidable c] {m1 m2 : M α}
    (h1 : KeepsDriver m1) (h2 : KeepsDriver m2) : KeepsDriver (if c then m1 else m2) := by
  split
  · exact h1
  · exact h2

theorem build_front_keeps (r : TextRegion) : KeepsDriver (build_front r) := by
  unfold build_front
  repeat' first
    | apply keepsDriver_bind
    | apply keepsDriver_ite
    | apply keepsDriver_subElement
    | apply keepsDriver_writeBody
    | exact fun c1 => ⟨rfl, rfl, rfl⟩
    | exact ⟨rfl, rfl, rfl⟩
    | split
    | simp only []
    | intro _

theorem body_header_keeps (r : TextRegion) (n : Nat) : KeepsDriver (body_header r n) := by
  unfold body_header
  repeat' first
    | apply keepsDriver_bind
    | apply keepsDriver_ite
    | apply keepsDriver_subElement
    | apply keepsDriver_writeBody
    | exact fun c1 => ⟨rfl, rfl, rfl⟩
    | exact ⟨rfl, rfl, rfl⟩
    | split
    | simp only []
    | intro _

theorem body_heading_keeps (r : TextRegion) : KeepsDriver (body_heading r) := by
  unfold body_heading
  repeat' first
    | apply keepsDriver_bind
    | apply keepsDriver_ite
    | apply keepsDriver_subElement
    | apply keepsDriver_writeBody
    | exact fun c1 => ⟨rfl, rfl, rfl⟩
    | exact ⟨rfl, rfl, rfl⟩
    | split
    | simp only []
    | intro _

theorem body_toc_keeps (r : TextRegion) : KeepsDriver (body_toc r) := by
  unfold body_toc
  repeat' first
    | apply keepsDriver_bind
    | apply keepsDriver_ite
    | apply keepsDriver_subElement
    | exact fun c1 => ⟨rfl, rfl, rfl⟩
    | exact ⟨rfl, rfl, rfl⟩
    | split
    | simp only []
    | intro _

theorem body_signature_keeps (r : TextRegion) : KeepsDriver (body_signature r) := by
  unfold body_signature
  repeat' first
    | apply keepsDriver_bind
    | apply keepsDriver_ite
    | apply keepsDriver_subElement
    | exact fun c1 => ⟨rfl, rfl, rfl⟩
    | exact ⟨rfl, rfl, rfl⟩
    | split
    | simp only []
    | intro _

theorem body_floating_keeps (r : TextRegion) : KeepsDriver (body_floating r) := by
  unfold body_floating
  repeat' first
    | apply keepsDriver_bind
    | apply keepsDriver_ite
    | apply keepsDriver_subElement
    | exact fun c1 => ⟨rfl, rfl, rfl⟩
    | exact ⟨rfl, rfl, rfl⟩
    | split
    | simp only []
    | intro _

theorem body_credit_keeps (r : TextRegion) : KeepsDriver (body_credit r) := by
  unfold body_credit
  repeat' first
    | apply keepsDriver_bind
    | apply keepsDriver_ite
    | apply keepsDriver_subElement
    | exact fun c1 => ⟨rfl, rfl, rfl⟩
    | exact ⟨rfl, rfl, rfl⟩
    | split
    | simp only []
    | intro _

theorem body_paragraph_keeps (r : TextRegion) : KeepsDriver (body_paragraph r) := by
  unfold body_paragraph
  repeat' first
    | apply keepsDriver_bind
    | apply keepsDriver_ite
    | apply keepsDriver_subElement
    | exact fun c1 => ⟨rfl, rfl, rfl⟩
    | exact ⟨rfl, rfl, rfl⟩
    | split
    | simp only []
    | intro _

theorem body_caption_keeps (r : TextRegion) : KeepsDriver (body_caption r) := by
  unfold body_caption
  repeat' first
    | apply keepsDriver_bind
    | apply keepsDriver_ite
    | apply keepsDriver_subElement
    | exact fun c1 => ⟨rfl, rfl, rfl⟩
    | exact ⟨rfl, rfl, rfl⟩
    | split
    | simp only []
    | intro _

theorem body_footnote_keeps (r : TextRegion) : KeepsDriver (body_footnote r) := by
  unfold body_footnote
  repeat' first
    | apply keepsDriver_bind
    | apply keepsDriver_ite
    | apply keepsDriver_subElement
    | exact fun c1 => ⟨rfl, rfl, rfl⟩
    | exact ⟨rfl, rfl, rfl⟩
    | split
    | simp only []
    | intro _

theorem body_catchword_keeps (r : TextRegion) : KeepsDriver (body_catchword r) := by
  unfold body_catchword
  repeat' first
    | apply keepsDriver_bind
    | apply keepsDriver_ite
    | apply keepsDriver_subElement
    | apply keepsDriver_writeBody
    | exact fun c1 => ⟨rfl, rfl, rfl⟩
    | exact ⟨rfl, rfl, rfl⟩
    | split
    | simp only []
    | intro _

theorem body_unknown_keeps (r : TextRegion) : KeepsDriver (body_unknown r) := by
  unfold body_unknown
  repeat' first
    | apply keepsDriver_bind
    | apply keepsDriver_ite
    | apply keepsDriver_subElement
    | exact fun c1 => ⟨rfl, rfl, rfl⟩
    | exact ⟨rfl, rfl, rfl⟩
    | split
    | simp only []
    | intro _

set_option maxHeartbeats 1600000 in
theorem build_body_keeps (r : TextRegion) (is_last : Bool) (n : Nat) :
    KeepsDriver (build_body r is_last n) := by
  unfold build_body body_branch body_epilogue
  repeat' first
    | apply body_header_keeps
    | apply body_heading_keeps
    | apply body_toc_keeps
    | apply body_signature_keeps
    | apply body_floating_keeps
    | apply body_credit_keeps
    | apply body_paragraph_keeps
    | apply body_caption_keeps
    | apply body_footnote_keeps
    | apply body_catchword_keeps
    | apply body_unknown_keeps
    | apply keepsDriver_bind
    | apply keepsDriver_ite
    | apply keepsDriver_writeBody
    | exact fun c1 => ⟨rfl, rfl, rfl⟩
    | exact ⟨rfl, rfl, rfl⟩
    | split
    | simp only []
    | intro _

/-! ### C3: the front-to-body handoff -/

theorem write_front_ok (c : Conv) (f : Nat) (hf : c.front = some f) :
    ∃ c', write_front c = Res.ok () c' ∧ c'.text_part = "body" ∧ c'.front = some f
      ∧ c'.frontWritten.length = c.frontWritten.length + 1
      ∧ c'.current_file = c.current_file := by
  unfold write_front
  simp only [bind, M.bind, pure, M.pure, mget, mmodify, subElement, putText,
    writeFrontTree, hf]
  exact ⟨_, rfl, rfl, rfl, by simp, rfl⟩

theorem frontFor_break (pre : List TextRegion) :
    ∀ (c : Conv) (acc : DriveAcc) (f : Nat) (rm : TextRegion) (post : List TextRegion),
      c.front = some f →
      (∀ x ∈ pre, typeInMarker x = false) → typeInMarker rm = true →
      ∃ c' acc' E,
        frontFor c acc (pre ++ rm :: post) = Except.ok (c', acc', some rm)
          ∧ acc'.trace = acc.trace ++ pre.map (fun x => (⟨"front", x.id, x.type⟩ : Ev))
          ∧ acc'.errors = acc.errors ++ E
          ∧ c'.text_part = "body" ∧ c'.front = some f
          ∧ c'.frontWritten.length = c.frontWritten.length + 1
          ∧ c'.current_file = c.current_file := by
  induction pre with
  | nil =>
    intro c acc f rm post hf hpre hm
    obtain ⟨c', hw, h1, h2, h3, h4⟩ := write_front_ok c f hf
    refine ⟨c', acc, [], ?_, by simp, by simp, h1, h2, h3, h4⟩
    simp only [List.nil_append, frontFor, hm, if_true, hw]
  | cons x pre ih =>
    intro c acc f rm post hf hpre hm
    have hx : typeInMarker x = false := hpre x (List.mem_cons_self x pre)
    have hpre' : ∀ y ∈ pre, typeInMarker y = false :=
      fun y hy => hpre y (List.mem_cons_of_mem x hy)
    have hkeep := (build_front_keeps x) c
    cases hb : build_front x c with
    | ok a c1 =>
      rw [hb] at hkeep
      simp only [Res.state] at hkeep
      obtain ⟨c', acc', E, hrun, htr, herr, hbody, hfr, hlen, hcf⟩ :=
        ih c1 { acc with trace := acc.trace ++ [⟨"front", x.id, x.type⟩] } f rm post
          (hkeep.1.trans hf) hpre' hm
      refine ⟨c', acc', E, ?_, ?_, ?_, hbody, hfr, ?_, ?_⟩
      · simp only [List.cons_append, frontFor, hx, Bool.false_eq_true, if_false, hb,
          List.append_eq]
        rw [hrun]
      · rw [htr]
        simp
      · rw [herr]
      · rw [hlen, hkeep.2.1]
      · rw [hcf, hkeep.2.2]
    | err e c1 =>
      rw [hb] at hkeep
      simp only [Res.state] at hkeep
      obtain ⟨c', acc', E, hrun, htr, herr, hbody, hfr, hlen, hcf⟩ :=
        ih c1 { trace := acc.trace ++ [⟨"front", x.id, x.type⟩],
                errors := acc.errors ++ [c.current_file ++ " FEHLER front"] } f rm post
          (hkeep.1.trans hf) hpre' hm
      refine ⟨c', acc', (c.current_file ++ " FEHLER front") :: E, ?_, ?_, ?_, hbody, hfr, ?_, ?_⟩
      · simp only [List.cons_append, frontFor, hx, Bool.false_eq_true, if_false, hb,
          List.append_eq]
        rw [hrun]
      · rw [htr]
        simp
      · rw [herr]
        simp
      · rw [hlen, hkeep.2.1]
      · rw [hcf, hkeep.2.2]

theorem bodyStep_front_facts (c : Conv) (acc : DriveAcc) (n : Nat) (r : TextRegion)
    (il : Bool) :
    (bodyStep c acc n r il).2.1.trace = acc.trace ++ [⟨"body", r.id, r.type⟩]
      ∧ (bodyStep c acc n r il).1.frontWritten = c.frontWritten
      ∧ (bodyStep c acc n r il).1.front = c.front := by
  unfold bodyStep
  have hk := (build_body_keeps r il n) c
  cases hb : build_body r il n c with
  | ok n1 c1 =>
    rw [hb] at hk
    simp only [Res.state] at hk
    exact ⟨rfl, hk.2.1, hk.1⟩
  | err e c1 =>
    rw [hb] at hk
    simp only [Res.state] at hk
    exact ⟨rfl, hk.2.1, hk.1⟩

theorem bodyFor_front_facts (rs : List TextRegion) :
    ∀ (lastR : Option TextRegion) (c : Conv) (acc : DriveAcc) (n : Nat) (lastFile : Bool),
      (bodyFor lastR c acc n rs lastFile).2.1.trace
          = acc.trace ++ rs.map (fun x => (⟨"body", x.id, x.type⟩ : Ev))
        ∧ (bodyFor lastR c acc n rs lastFile).1.frontWritten = c.frontWritten := by
  induction rs with
  | nil => intro lastR c acc n lastFile; exact ⟨by simp [bodyFor], rfl⟩
  | cons r rs ih =>
    intro lastR c acc n lastFile
    have hstep := bodyStep_front_facts c acc n r (lastFile && (some r == lastR))
    have hih := ih lastR (bodyStep c acc n r (lastFile && (some r == lastR))).1
      (bodyStep c acc n r (lastFile && (some r == lastR))).2.1
      (bodyStep c acc n r (lastFile && (some r == lastR))).2.2 lastFile
    refine ⟨?_, ?_⟩
    · show (bodyFor lastR (bodyStep c acc n r (lastFile && (some r == lastR))).1
          (bodyStep c acc n r (lastFile && (some r == lastR))).2.1
          (bodyStep c acc n r (lastFile && (some r == lastR))).2.2 rs lastFile).2.1.trace = _
      rw [hih.1, hstep.1]
      simp
    · show (bodyFor lastR (bodyStep c acc n r (lastFile && (some r == lastR))).1
          (bodyStep c acc n r (lastFile && (some r == lastR))).2.1
          (bodyStep c acc n r (lastFile && (some r == lastR))).2.2 rs lastFile).1.frontWritten = _
      rw [hih.2, hstep.2.1]

theorem frontLoop_single_page (c0 : Conv) (acc : DriveAcc) (pg : Page) (f : Nat)
    (pre post : List TextRegion) (rm : TextRegion)
    (hf : c0.front = some f)
    (hregs : pg.text_region_list = pre ++ rm :: post)
    (hpre : ∀ x ∈ pre, typeInMarker x = false) (hpre0 : pre ≠ [])
    (hm : typeInMarker rm = true)
    (hnl : (pg.text_region_list.getLast? == some rm) = false) :
    ∃ c' acc' E, frontLoop c0 acc pg [] = Except.ok (c', acc', pg, [])
      ∧ acc'.trace = acc.trace ++ pre.map (fun x => (⟨"front", x.id, x.type⟩ : Ev))
      ∧ acc'.errors = acc.errors ++ E
      ∧ c'.text_part = "body"
      ∧ c'.frontWritten.length = c0.frontWritten.length + 1
      ∧ c'.current_file = c0.current_file := by
  cases pre with
  | nil => exact absurd rfl hpre0
  | cons r0 pre' =>
    have hr0 : typeInMarker r0 = false := hpre r0 (List.mem_cons_self r0 pre')
    obtain ⟨c', acc', E, hff, htr, herr, hbody, hfr, hlen, hcf⟩ :=
      frontFor_break (r0 :: pre') c0 acc f rm post hf hpre hm
    rw [List.cons_append] at hff
    refine ⟨c', acc', E, ?_, htr, herr, hbody, hlen, hcf⟩
    unfold frontLoop frontPass
    rw [hregs]
    simp only [List.cons_append, hff]
    rw [hregs] at hnl
    simp only [List.cons_append] at hnl
    simp only [hnl, Bool.false_eq_true, if_false]
    unfold frontCheck
    rw [hregs]
    simp only [List.cons_append, List.head?_cons, hr0, Bool.false_eq_true, if_false]
    rw [hbody]
    rfl

theorem bodyLoop_single_page (c0 : Conv) (acc : DriveAcc) (n : Nat) (pg : Page)
    (hcf : (c0.current_file == "end") = false) (hne : pg.text_region_list ≠ []) :
    bodyLoop c0 acc n pg []
      = Except.ok ({ (bodyFor pg.text_region_list.getLast? c0 acc n
              pg.text_region_list true).1 with
            current_file := "end" },
          (bodyFor pg.text_region_list.getLast? c0 acc n pg.text_region_list true).2.1,
          (bodyFor pg.text_region_list.getLast? c0 acc n pg.text_region_list true).2.2) := by
  unfold bodyLoop
  rw [hcf]
  simp only [Bool.false_eq_true, if_false]
  cases h : pg.text_region_list with
  | nil => exact absurd h hne
  | cons a l => rfl

/-- C3 amended: when the front phase meets a mid-page body marker that is
not the same region object as the last entry of the page (the line-192 identity
test fails), the front subtree is flushed exactly once, but body-phase
processing does not start at that region -- it restarts at the beginning of
the current page, so every region already consumed by the front phase is
fed to the body transducer again (and the marker is processed in its page
position). -/
theorem C3_body_restarts_page (inputs : List PageFile) (p0 : PageFile) (pg : Page)
    (pre post : List TextRegion) (rm : TextRegion)
    (hfl : file_list inputs = [p0])
    (hfile : p0.file ≠ "end")
    (hmk : Page.make p0 = Except.ok pg)
    (hregs : pg.text_region_list = pre ++ rm :: post)
    (hpre : ∀ x ∈ pre, typeInMarker x = false)
    (hpre0 : pre ≠ [])
    (hm : typeInMarker rm = true)
    (hnl : (pg.text_region_list.getLast? == some rm) = false) :
    ∃ res, Conversion.run inputs = Except.ok res
      ∧ res.trace = pre.map (fun x => (⟨"front", x.id, x.type⟩ : Ev))
          ++ (pre ++ rm :: post).map (fun x => (⟨"body", x.id, x.type⟩ : Ev))
      ∧ res.frontWritten.length = 1 := by
  have hr0type : ∃ r0 pre', pre = r0 :: pre' := by
    cases pre with
    | nil => exact absurd rfl hpre0
    | cons a l => exact ⟨a, l, rfl⟩
  obtain ⟨r0, pre', hpre_eq⟩ := hr0type
  have hr0 : typeInMarker r0 = false := by
    rw [hpre_eq] at hpre
    exact hpre r0 (List.mem_cons_self r0 pre')
  have hhead : pg.text_region_list.head? = some r0 := by
    rw [hregs, hpre_eq]
    rfl
  unfold Conversion.run
  rw [hfl]
  simp only [hmk]
  unfold create_tei
  rw [hhead]
  simp only [hr0, Bool.false_eq_true, if_false]
  have htp : ((Conv.init p0.file).text_part == "front") = true := rfl
  rw [htp]
  simp only [if_true]
  obtain ⟨c', acc', E, hloop, htr, herr, hbody, hlen, hcf⟩ :=
    frontLoop_single_page
      { Conv.init p0.file with
          store := (((Conv.init p0.file).store).newElem "front" []).1,
          front := some (((Conv.init p0.file).store).newElem "front" []).2 }
      { trace := [], errors := [] } pg 0 pre post rm rfl hregs hpre hpre0 hm hnl
  rw [hloop]
  have hbodytp : (c'.text_part == "body") = true := by rw [hbody]; rfl
  simp only [hbodytp, if_true]
  have hcfend : (c'.current_file == "end") = false := by
    rw [hcf]
    exact beq_eq_false_iff_ne.mpr hfile
  have hne : pg.text_region_list ≠ [] := by
    rw [hregs]
    cases pre <;> simp
  rw [bodyLoop_single_page c' acc' 0 pg hcfend hne]
  have hbf := bodyFor_front_facts pg.text_region_list pg.text_region_list.getLast?
    c' acc' 0 true
  refine ⟨_, rfl, ?_, ?_⟩
  · show (bodyFor pg.text_region_list.getLast? c' acc' 0
        pg.text_region_list true).2.1.trace = _
    rw [hbf.1, htr, hregs]
    simp
  · show (bodyFor pg.text_region_list.getLast? c' acc' 0
        pg.text_region_list true).1.frontWritten.length = 1
    rw [hbf.2, hlen]
    rfl

/-- Witness for C3 at the concrete page `c3Page` (front consumes `r1`,
marker `r2` mid-page, `r3` after it). -/
theorem C3_body_restarts_page_witness :
    ∃ res, Conversion.run [c3Page] = Except.ok res
      ∧ res.trace = [⟨"front", some "r1", some "catch-word"⟩]
          ++ [⟨"body", some "r1", some "catch-word"⟩, ⟨"body", some "r2", some "header"⟩,
              ⟨"body", some "r3", some "paragraph"⟩]
      ∧ res.frontWritten.length = 1 := by
  have := C3_body_restarts_page [c3Page] c3Page
    { file := "p1", reading_order := [some "r1", some "r2", some "r3"],
      text_region_list :=
        [{ id := some "r1", type := some "catch-word",
           line := [{ x := 0, y := 0, alts := [{ index := some "0", unicode := "Titel" }] }],
           x := 0, y := 0 },
         { id := some "r2", type := some "header",
           line := [{ x := 0, y := 0, alts := [{ index := some "0", unicode := "Akt" }] }],
           x := 0, y := 0 },
         { id := some "r3", type := some "paragraph",
           line := [{ x := 0, y := 0, alts := [{ index := some "0", unicode := "Text" }] }],
           x := 0, y := 0 }] }
    [{ id := some "r1", type := some "catch-word",
       line := [{ x := 0, y := 0, alts := [{ index := some "0", unicode := "Titel" }] }],
       x := 0, y := 0 }]
    [{ id := some "r3", type := some "paragraph",
       line := [{ x := 0, y := 0, alts := [{ index := some "0", unicode := "Text" }] }],
       x := 0, y := 0 }]
    { id := some "r2", type := some "header",
      line := [{ x := 0, y := 0, alts := [{ index := some "0", unicode := "Akt" }] }],
      x := 0, y := 0 }
    rfl (by decide) rfl rfl (by decide) (by decide) (by decide) (by decide)
  simpa using this

/-! ### C3 and C4 counterexamples -/

/-- C3 counterexample: on `c3Page` the front phase consumes `r1` and breaks
at the mid-page marker `r2`; the claim says body processing starts at `r2`
with no front-consumed region reprocessed, but the trace shows the body
phase restarting at `r1`, reprocessing it.  (The front subtree is flushed
once.) -/
theorem C3_counterexample :
    (Conversion.run [c3Page]).map (fun res => (res.trace, res.frontWritten.length))
      = Except.ok ([⟨"front", some "r1", some "catch-word"⟩,
                    ⟨"body", some "r1", some "catch-word"⟩,
                    ⟨"body", some "r2", some "header"⟩,
                    ⟨"body", some "r3", some "paragraph"⟩], 1) :=
  rfl

/-- C4 counterexample: on `c4Page` one header-typed region is encountered in
the body phase, but zero acts are flushed to output: the last region's
processing raises (no scene/speech open for the paragraph), so the
end-of-stream act flush is skipped. -/
theorem C4_counterexample :
    (Conversion.run [c4Page]).map
        (fun res => (numActs res.bodyWritten, headerBodyCount res.trace))
      = Except.ok (0, 1) :=
  rfl

theorem Store.subElem_snd (st : Store) (p : Nat) (t : String)
    (a : List (String × String)) : (st.subElem p t a).2 = st.length := rfl

/-- C6 amended: in body phase, a caption region after a credit or a heading
is appended as stage-direction text to the open speech when one is open and
otherwise to the open scene; a caption after a prior normal-scenario
caption ignores the open speech and is appended to the open prologue's
stage direction if a prologue is open, else to the open scene's.  In all
cases the scenario marker is set to normal. -/
theorem C6_caption_routing (c : Conv) (r : TextRegion) (n : Nat)
    (hty : r.type = some "caption") :
    ((c.previous_type = some "credit" ∨ c.previous_type = some "heading") →
        (∀ s, c.sp = some s →
            build_body r false n c
              = Res.ok n (appendStageState c s (concatenate_lines r) r.type))
          ∧ (c.sp = none → ∀ sc, c.scene = some sc →
            build_body r false n c
              = Res.ok n (appendStageState c sc (concatenate_lines r) r.type)))
      ∧ (c.previous_type = some "caption" → c.scenario_tag = some "normal" →
          (∀ pr, c.prologue = some pr →
              build_body r false n c
                = Res.ok n (appendStageState c pr (concatenate_lines r) r.type))
            ∧ (c.prologue = none → ∀ sc, c.scene = some sc →
              build_body r false n c
                = Res.ok n (appendStageState c sc (concatenate_lines r) r.type))) := by
  have e1 : (r.type == some "header") = false := by rw [hty]; rfl
  have e2 : (r.type == some "heading") = false := by rw [hty]; rfl
  have e3 : (r.type == some "TOC-entry") = false := by rw [hty]; rfl
  have e4 : (r.type == some "signature-mark") = false := by rw [hty]; rfl
  have e5 : (r.type == some "floating") = false := by rw [hty]; rfl
  have e6 : (r.type == some "credit") = false := by rw [hty]; rfl
  have e7 : (r.type == some "drop-capital") = false := by rw [hty]; rfl
  have e8 : (r.type == some "paragraph") = false := by rw [hty]; rfl
  have e9 : (r.type == some "caption") = true := by rw [hty]; rfl
  constructor
  · intro hprev
    have pfacts : (c.previous_type == some "header") = false
        ∧ (c.previous_type == some "caption") = false
        ∧ (c.previous_type == some "paragraph") = false
        ∧ ((c.previous_type == some "credit") || (c.previous_type == some "heading")
            || (c.previous_type == some "scene")) = true := by
      rcases hprev with h | h <;> rw [h] <;> exact ⟨rfl, rfl, rfl, rfl⟩
    obtain ⟨p1, p2, p3, p4⟩ := pfacts
    constructor
    · intro s hsp
      unfold build_body body_branch body_caption body_epilogue
      simp [bind, M.bind, pure, M.pure, mget, mmodify, mthrow, subElement, newElement,
        putText, writeBody, debugLog, e1, e2, e3, e4, e5, e6, e7, e8, e9,
        p1, p2, p3, p4, hsp, appendStageState, Store.subElem_snd]
    · intro hsp sc hsc
      unfold build_body body_branch body_caption body_epilogue
      simp [bind, M.bind, pure, M.pure, mget, mmodify, mthrow, subElement, newElement,
        putText, writeBody, debugLog, e1, e2, e3, e4, e5, e6, e7, e8, e9,
        p1, p2, p3, p4, hsp, hsc, appendStageState, Store.subElem_snd]
  · intro hprev hscen
    have p1 : (c.previous_type == some "header") = false := by rw [hprev]; rfl
    have p2 : (c.previous_type == some "caption") = true := by rw [hprev]; rfl
    have p3 : (c.previous_type == some "paragraph") = false := by rw [hprev]; rfl
    have p4 : (c.previous_type == some "credit") = false := by rw [hprev]; rfl
    have p5 : (c.previous_type == some "heading") = false := by rw [hprev]; rfl
    have p6 : (c.previous_type == some "scene") = false := by rw [hprev]; rfl
    constructor
    · intro pr hpro
      unfold build_body body_branch body_caption body_epilogue
      simp [bind, M.bind, pure, M.pure, mget, mmodify, mthrow, subElement, newElement,
        putText, writeBody, debugLog, e1, e2, e3, e4, e5, e6, e7, e8, e9,
        p1, p2, p3, p4, p5, p6, hscen, hpro, appendStageState, Store.subElem_snd]
    · intro hpro sc hsc
      unfold build_body body_branch body_caption body_epilogue
      simp [bind, M.bind, pure, M.pure, mget, mmodify, mthrow, subElement, newElement,
        putText, writeBody, debugLog, e1, e2, e3, e4, e5, e6, e7, e8, e9,
        p1, p2, p3, p4, p5, p6, hscen, hpro, hsc, appendStageState, Store.subElem_snd]

/-- Witness for C6 at a concrete caption step: previous type `caption`,
scenario `normal`, no prologue, scene open at index 0. -/
theorem C6_caption_routing_witness :
    c6DemoConv.previous_type = some "caption"
      ∧ build_body c6DemoRegion false 0 c6DemoConv
          = Res.ok 0 (appendStageState c6DemoConv 0
              (concatenate_lines c6DemoRegion) c6DemoRegion.type) :=
  ⟨rfl, ((C6_caption_routing c6DemoConv c6DemoRegion 0 rfl).2 rfl rfl).2 rfl 0 rfl⟩

/-- C6 counterexample: on `c6Page` the last caption (`CapB`) follows a
normal-scenario caption while a speech is open, yet its stage direction is
attached to the scene (which ends with stage texts `[none, CapB]` — the
entrance placeholder and the caption) and not to the open speech (whose
only stage direction is `CapA` from the credit case). -/
theorem C6_counterexample :
    (Conversion.run [c6Page]).map (fun res =>
        (res.final.scene.map (fun sc => stageChildTexts res.final.store sc),
         res.final.sp.map (fun s => stageChildTexts res.final.store s),
         res.errors.length))
      = Except.ok (some [none, some "CapB"], some [some "CapA"], 0) :=
  rfl

/-! ### Store-shape lemmas -/

theorem storeExtends_refl (st : Store) : StoreExtends st st :=
  fun _ nd h => ⟨nd, h, rfl, rfl⟩

theorem storeExtends_trans {s1 s2 s3 : Store} (h1 : StoreExtends s1 s2)
    (h2 : StoreExtends s2 s3) : StoreExtends s1 s3 := by
  intro i nd h
  obtain ⟨n2, h21, ht, ha⟩ := h1 i nd h
  obtain ⟨n3, h31, ht2, ha2⟩ := h2 i n2 h21
  exact ⟨n3, h31, ht2.trans ht, ha2.trans ha⟩

theorem storeExtends_append (st l : Store) : StoreExtends st (st ++ l) := by
  intro i nd h
  refine ⟨nd, ?_, rfl, rfl⟩
  obtain ⟨hlt, -⟩ := List.get?_eq_some.mp h
  rw [Store.read?] at h ⊢
  rw [List.get?_append hlt]
  exact h

theorem storeExtends_updateAt (st : Store) (j : Nat) (f : Node → Node)
    (hf : ∀ nd, (f nd).tag = nd.tag ∧ (f nd).attrs = nd.attrs) :
    StoreExtends st (st.updateAt j f) := by
  induction st generalizing j with
  | nil => intro i nd h; exact ⟨nd, h, rfl, rfl⟩
  | cons a l ih =>
    intro i nd h
    cases j with
    | zero =>
      cases i with
      | zero =>
        have hnd : nd = a := by
          rw [Store.read?, List.get?] at h
          exact (Option.some.inj h).symm
        subst hnd
        exact ⟨f nd, rfl, (hf nd).1, (hf nd).2⟩
      | succ i2 => exact ⟨nd, h, rfl, rfl⟩
    | succ j2 =>
      cases i with
      | zero =>
        have hnd : nd = a := by
          rw [Store.read?, List.get?] at h
          exact (Option.some.inj h).symm
        subst hnd
        exact ⟨nd, rfl, rfl, rfl⟩
      | succ i2 =>
        have h2 : Store.read? l i2 = some nd := h
        obtain ⟨nd2, hr, ht, ha⟩ := ih j2 i2 nd h2
        exact ⟨nd2, hr, ht, ha⟩

theorem storeExtends_setTextAt (st : Store) (i : Nat) (t : String) :
    StoreExtends st (st.setTextAt i t) :=
  storeExtends_updateAt st i _ (fun _ => ⟨rfl, rfl⟩)

theorem storeExtends_newElem (st : Store) (tg : String) (ats : List (String × String)) :
    StoreExtends st (st.newElem tg ats).1 :=
  storeExtends_append st _

theorem storeExtends_subElem (st : Store) (p : Nat) (tg : String)
    (ats : List (String × String)) : StoreExtends st (st.subElem p tg ats).1 :=
  storeExtends_trans (storeExtends_newElem st tg ats)
    (storeExtends_updateAt _ p _ (fun _ => ⟨rfl, rfl⟩))

theorem nodeShape_mono {st st2 : Store} {i : Nat} {tg : String}
    {ats : List (String × String)} (hext : StoreExtends st st2) :
    NodeShape st i tg ats → NodeShape st2 i tg ats := by
  rintro ⟨nd, hr, ht, ha⟩
  obtain ⟨nd2, hr2, ht2, ha2⟩ := hext i nd hr
  exact ⟨nd2, hr2, ht2.trans ht, ha2.trans ha⟩

theorem nodeShape_newElem (st : Store) (tg : String) (ats : List (String × String)) :
    NodeShape (st.newElem tg ats).1 (st.newElem tg ats).2 tg ats := by
  refine ⟨{ tag := tg, attrs := ats, text := none, children := [] }, ?_, rfl, rfl⟩
  show Store.read?
      (st ++ [{ tag := tg, attrs := ats, text := none, children := [] }]) st.length
      = some { tag := tg, attrs := ats, text := none, children := [] }
  rw [Store.read?]
  exact List.get?_concat_length st _

theorem nodeShape_newElem2 (st : Store) (tg : String) (ats : List (String × String)) :
    NodeShape (st ++ [{ tag := tg, attrs := ats, text := none, children := [] }])
      st.length tg ats := nodeShape_newElem st tg ats

theorem nodeShape_subElem (st : Store) (p : Nat) (tg : String)
    (ats : List (String × String)) :
    NodeShape (st.subElem p tg ats).1 (st.subElem p tg ats).2 tg ats := by
  have h := nodeShape_newElem st tg ats
  have hext := storeExtends_updateAt (st.newElem tg ats).1 p
      (fun nd => { nd with children := nd.children ++ [(st.newElem tg ats).2] })
      (fun _ => ⟨rfl, rfl⟩)
  exact nodeShape_mono hext h

theorem snapshot_tag_attrs {st : Store} {i : Nat} {nd : Node}
    (h : st.read? i = some nd) :
    (snapshot st i).tag = nd.tag ∧ (snapshot st i).attrs = nd.attrs := by
  simp only [snapshot, materializeTree, h]
  exact ⟨rfl, rfl⟩

theorem isActTree_of_shape {st : Store} {i : Nat}
    (h : NodeShape st i "div" [("type", "act")]) : isActTree (snapshot st i) = true := by
  obtain ⟨nd, hr, ht, ha⟩ := h
  obtain ⟨htag, hattrs⟩ := snapshot_tag_attrs hr
  rw [isActTree, htag, ht, hattrs, ha]
  rfl

theorem isActTree_false_of_shape {st : Store} {i : Nat} {tg : String}
    {ats : List (String × String)} (h : NodeShape st i tg ats)
    (hne : (tg == "div" && ats == [("type", "act")]) = false) :
    isActTree (snapshot st i) = false := by
  obtain ⟨nd, hr, ht, ha⟩ := h
  obtain ⟨htag, hattrs⟩ := snapshot_tag_attrs hr
  rw [isActTree, htag, ht, hattrs, ha]
  exact hne

theorem numActs_append (l : List Tree) (t : Tree) :
    numActs (l ++ [t]) = numActs l + (if isActTree t then 1 else 0) := by
  simp [numActs, List.countP_append, List.countP_cons]

theorem actInv_transport {c c2 : Conv} {n : Nat} (hinv : ActInv c n)
    (hact : c2.act = c.act) (hpro : c2.prologue = c.prologue)
    (hbw : numActs c2.bodyWritten = numActs c.bodyWritten)
    (hst : StoreExtends c.store c2.store) : ActInv c2 n := by
  obtain ⟨h1, h2, h3⟩ := hinv
  refine ⟨?_, ?_, ?_⟩
  · intro a ha
    exact nodeShape_mono hst (h1 a (hact ▸ ha))
  · intro p hp
    exact nodeShape_mono hst (h2 p (hpro ▸ hp))
  · rw [hbw, hact]
    exact h3

/-! ### KeepsActInv combinators -/

theorem keepsActInv_bind {α β : Type} {m : M α} {k : α → M β} (hm : KeepsActInv m)
    (hk : ∀ a, KeepsActInv (k a)) : KeepsActInv (m >>= k) := by
  intro c n hinv
  show ActInv ((M.bind m k) c).state n
  unfold M.bind
  cases hres : m c with
  | ok a c2 =>
    have h2 := hm c n hinv
    rw [hres] at h2
    exact hk a c2 n h2
  | err e c2 =>
    have h2 := hm c n hinv
    rw [hres] at h2
    exact h2

theorem keepsActInv_ite {α : Type} {p : Prop} [Decidable p] {m1 m2 : M α}
    (h1 : KeepsActInv m1) (h2 : KeepsActInv m2) :
    KeepsActInv (if p then m1 else m2) := by
  split
  · exact h1
  · exact h2

theorem keepsActInv_subElement (p : Option Nat) (t : String)
    (a : List (String × String)) : KeepsActInv (subElement p t a) := by
  intro c n hinv
  cases p with
  | none => exact hinv
  | some q => exact actInv_transport hinv rfl rfl rfl (storeExtends_subElem c.store q t a)

theorem keepsActInv_newElement (t : String) (a : List (String × String)) :
    KeepsActInv (newElement t a) := by
  intro c n hinv
  exact actInv_transport hinv rfl rfl rfl (storeExtends_newElem c.store t a)

theorem keepsActInv_putText (i : Nat) (s : String) : KeepsActInv (putText i s) := by
  intro c n hinv
  exact actInv_transport hinv rfl rfl rfl (storeExtends_setTextAt c.store i s)

theorem body_toc_actInv (r : TextRegion) : KeepsActInv (body_toc r) := by
  unfold body_toc
  repeat' first
    | apply keepsActInv_bind
    | apply keepsActInv_ite
    | apply keepsActInv_subElement
    | apply keepsActInv_putText
    | exact fun c n hinv => hinv
    | split
    | simp only []
    | intro _

theorem body_signature_actInv (r : TextRegion) : KeepsActInv (body_signature r) := by
  unfold body_signature
  repeat' first
    | apply keepsActInv_bind
    | apply keepsActInv_ite
    | apply keepsActInv_subElement
    | apply keepsActInv_putText
    | exact fun c n hinv => hinv
    | split
    | simp only []
    | intro _

theorem body_floating_actInv (r : TextRegion) : KeepsActInv (body_floating r) := by
  unfold body_floating
  repeat' first
    | apply keepsActInv_bind
    | apply keepsActInv_ite
    | apply keepsActInv_subElement
    | apply keepsActInv_putText
    | exact fun c n hinv => hinv
    | split
    | simp only []
    | intro _

theorem body_credit_actInv (r : TextRegion) : KeepsActInv (body_credit r) := by
  unfold body_credit
  repeat' first
    | apply keepsActInv_bind
    | apply keepsActInv_ite
    | apply keepsActInv_subElement
    | apply keepsActInv_putText
    | exact fun c n hinv => hinv
    | split
    | simp only []
    | intro _

theorem body_paragraph_actInv (r : TextRegion) : KeepsActInv (body_paragraph r) := by
  unfold body_paragraph
  repeat' first
    | apply keepsActInv_bind
    | apply keepsActInv_ite
    | apply keepsActInv_subElement
    | apply keepsActInv_putText
    | exact fun c n hinv => hinv
    | split
    | simp only []
    | intro _

theorem body_caption_actInv (r : TextRegion) : KeepsActInv (body_caption r) := by
  unfold body_caption
  repeat' first
    | apply keepsActInv_bind
    | apply keepsActInv_ite
    | apply keepsActInv_subElement
    | apply keepsActInv_putText
    | exact fun c n hinv => hinv
    | split
    | simp only []
    | intro _

theorem body_footnote_actInv (r : TextRegion) : KeepsActInv (body_footnote r) := by
  unfold body_footnote
  repeat' first
    | apply keepsActInv_bind
    | apply keepsActInv_ite
    | apply keepsActInv_subElement
    | apply keepsActInv_putText
    | exact fun c n hinv => hinv
    | split
    | simp only []
    | intro _

theorem body_unknown_actInv (r : TextRegion) : KeepsActInv (body_unknown r) := by
  unfold body_unknown
  repeat' first
    | apply keepsActInv_bind
    | apply keepsActInv_ite
    | apply keepsActInv_subElement
    | apply keepsActInv_putText
    | exact fun c n hinv => hinv
    | split
    | simp only []
    | intro _

theorem body_heading_actInv (r : TextRegion) : KeepsActInv (body_heading r) := by
  intro c n hinv
  show ActInv ((body_heading r) c).state n
  unfold body_heading
  cases hact : c.act with
  | none =>
    have hc : (c.act == none) = true := by rw [hact]; rfl
    cases hp : c.prologue with
    | none =>
      have hps : c.prologue.isSome = false := by rw [hp]; rfl
      simp only [bind, M.bind, pure, M.pure, mget, mmodify, newElement, subElement,
        putText, debugLog, writeBody, Store.newElem, Store.subElem, hc, hps,
        eq_self_iff_true, if_true, Bool.false_eq_true, if_false, Res.state]
      refine ⟨?_, ?_, ?_⟩
      · intro a ha
        have ha2 : c.act = some a := ha
        rw [hact] at ha2
        exact Option.noConfusion ha2
      · intro q hq
        have hq2 : some c.store.length = some q := hq
        cases Option.some.inj hq2
        refine nodeShape_mono ?_ (nodeShape_newElem c.store "div" [("type", "prologue")])
        repeat' first
          | exact storeExtends_refl _
          | refine storeExtends_trans ?_ (storeExtends_setTextAt _ _ _)
          | refine storeExtends_trans ?_ (storeExtends_updateAt _ _ _ (fun _ => ⟨rfl, rfl⟩))
          | refine storeExtends_trans ?_ (storeExtends_append _ _)
      · exact hinv.2.2
    | some p =>
      have hps : c.prologue.isSome = true := by rw [hp]; rfl
      have hsh := hinv.2.1 p hp
      have hfalse : isActTree (snapshot c.store p) = false :=
        isActTree_false_of_shape hsh rfl
      simp only [bind, M.bind, pure, M.pure, mget, mmodify, newElement, subElement,
        putText, debugLog, writeBody, Store.newElem, Store.subElem, hc, hps, hp,
        Option.isSome_some, Option.isSome_none,
        eq_self_iff_true, if_true, Bool.false_eq_true, if_false, Res.state]
      refine ⟨?_, ?_, ?_⟩
      · intro a ha
        have ha2 : c.act = some a := ha
        rw [hact] at ha2
        exact Option.noConfusion ha2
      · intro q hq
        have hq2 : some c.store.length = some q := hq
        cases Option.some.inj hq2
        refine nodeShape_mono ?_ (nodeShape_newElem c.store "div" [("type", "prologue")])
        repeat' first
          | exact storeExtends_refl _
          | refine storeExtends_trans ?_ (storeExtends_setTextAt _ _ _)
          | refine storeExtends_trans ?_ (storeExtends_updateAt _ _ _ (fun _ => ⟨rfl, rfl⟩))
          | refine storeExtends_trans ?_ (storeExtends_append _ _)
      · have h3 := hinv.2.2
        rw [hact] at h3
        simp only [numActs_append, hfalse, hact, Bool.false_eq_true, if_false,
          Option.isSome_none, Option.isSome_some, eq_self_iff_true, if_true] at h3 ⊢
        omega
  | some a =>
    have hc : ((some a : Option Nat) == none) = false := rfl
    simp only [bind, M.bind, pure, M.pure, mget, mmodify, newElement, subElement,
      putText, debugLog, writeBody, Store.newElem, Store.subElem, hact, hc,
      eq_self_iff_true, if_true, Bool.false_eq_true, if_false, Res.state]
    refine actInv_transport hinv hact.symm rfl rfl ?_
    repeat' first
      | exact storeExtends_refl _
      | refine storeExtends_trans ?_ (storeExtends_setTextAt _ _ _)
      | refine storeExtends_trans ?_ (storeExtends_updateAt _ _ _ (fun _ => ⟨rfl, rfl⟩))
      | refine storeExtends_trans ?_ (storeExtends_append _ _)

theorem numActs_append_nonact {l : List Tree} {st : Store} {i : Nat} {tg : String}
    {ats : List (String × String)} (h : NodeShape st i tg ats)
    (hne : (tg == "div" && ats == [("type", "act")]) = false) :
    numActs (l ++ [snapshot st i]) = numActs l := by
  rw [numActs_append, isActTree_false_of_shape h hne]
  simp

theorem body_catchword_actInv (r : TextRegion) : KeepsActInv (body_catchword r) := by
  intro c n hinv
  show ActInv ((body_catchword r) c).state n
  unfold body_catchword
  cases hs : c.scene with
  | none =>
    have hc : ((none : Option Nat) == none) = true := rfl
    simp only [bind, M.bind, pure, M.pure, mget, mmodify, newElement, subElement,
      putText, debugLog, writeBody, Store.newElem, Store.subElem, hs, hc,
      Option.isSome_some, Option.isSome_none,
      eq_self_iff_true, if_true, Bool.false_eq_true, if_false, Res.state]
    refine ⟨?_, ?_, ?_⟩
    · intro a ha
      refine nodeShape_mono ?_ (hinv.1 a ha)
      repeat' first
        | exact storeExtends_refl _
        | refine storeExtends_trans ?_ (storeExtends_setTextAt _ _ _)
        | refine storeExtends_trans ?_ (storeExtends_updateAt _ _ _ (fun _ => ⟨rfl, rfl⟩))
        | refine storeExtends_trans ?_ (storeExtends_append _ _)
    · intro q hq
      refine nodeShape_mono ?_ (hinv.2.1 q hq)
      repeat' first
        | exact storeExtends_refl _
        | refine storeExtends_trans ?_ (storeExtends_setTextAt _ _ _)
        | refine storeExtends_trans ?_ (storeExtends_updateAt _ _ _ (fun _ => ⟨rfl, rfl⟩))
        | refine storeExtends_trans ?_ (storeExtends_append _ _)
    · rw [numActs_append_nonact (nodeShape_mono (by
          repeat' first
            | exact storeExtends_refl _
            | refine storeExtends_trans ?_ (storeExtends_setTextAt _ _ _)
            | refine storeExtends_trans ?_ (storeExtends_updateAt _ _ _ (fun _ => ⟨rfl, rfl⟩))
            | refine storeExtends_trans ?_ (storeExtends_append _ _))
          (nodeShape_newElem2 _ "head" [])) rfl]
      rw [numActs_append_nonact (nodeShape_mono (by
          repeat' first
            | exact storeExtends_refl _
            | refine storeExtends_trans ?_ (storeExtends_setTextAt _ _ _)
            | refine storeExtends_trans ?_ (storeExtends_updateAt _ _ _ (fun _ => ⟨rfl, rfl⟩))
            | refine storeExtends_trans ?_ (storeExtends_append _ _))
          (nodeShape_newElem2 c.store "p" [])) rfl]
      exact hinv.2.2
  | some sc =>
    have hc : ((some sc : Option Nat) == none) = false := rfl
    cases ht : r.type with
    | none =>
      simp only [bind, M.bind, pure, M.pure, mget, mmodify, mthrow, newElement,
        subElement, putText, debugLog, writeBody, Store.newElem, Store.subElem, hs, hc, ht,
        Option.isSome_some, Option.isSome_none,
        eq_self_iff_true, if_true, Bool.false_eq_true, if_false, Res.state]
      refine actInv_transport hinv rfl rfl rfl ?_
      repeat' first
        | exact storeExtends_refl _
        | refine storeExtends_trans ?_ (storeExtends_setTextAt _ _ _)
        | refine storeExtends_trans ?_ (storeExtends_updateAt _ _ _ (fun _ => ⟨rfl, rfl⟩))
        | refine storeExtends_trans ?_ (storeExtends_append _ _)
    | some t =>
      simp only [bind, M.bind, pure, M.pure, mget, mmodify, mthrow, newElement,
        subElement, putText, debugLog, writeBody, Store.newElem, Store.subElem, hs, hc, ht,
        Option.isSome_some, Option.isSome_none,
        eq_self_iff_true, if_true, Bool.false_eq_true, if_false, Res.state]
      refine actInv_transport hinv rfl rfl rfl ?_
      repeat' first
        | exact storeExtends_refl _
        | refine storeExtends_trans ?_ (storeExtends_setTextAt _ _ _)
        | refine storeExtends_trans ?_ (storeExtends_updateAt _ _ _ (fun _ => ⟨rfl, rfl⟩))
        | refine storeExtends_trans ?_ (storeExtends_append _ _)

theorem body_header_inv (r : TextRegion) (n : Nat) (c : Conv) (hinv : ActInv c n)
    {n1 : Nat} {c1 : Conv} (h : body_header r n c = Res.ok n1 c1) :
    n1 = n + 1 ∧ ActInv c1 (n + 1) := by
  unfold body_header at h
  cases hp : c.prologue with
  | none =>
    have hps : c.prologue.isSome = false := by rw [hp]; rfl
    by_cases hn : n + 1 > 1
    · cases hact : c.act with
      | none =>
        simp only [bind, M.bind, pure, M.pure, mget, mmodify, mthrow, newElement,
          subElement, putText, writeBody, Store.newElem, Store.subElem, hp, hps, hact,
          if_pos hn, Option.isSome_some, Option.isSome_none, eq_self_iff_true, if_true,
          Bool.false_eq_true, if_false, Res.state] at h
        exact Res.noConfusion h
      | some a =>
        simp only [bind, M.bind, pure, M.pure, mget, mmodify, mthrow, newElement,
          subElement, putText, writeBody, Store.newElem, Store.subElem, hp, hps, hact,
          if_pos hn, Option.isSome_some, Option.isSome_none, eq_self_iff_true, if_true,
          Bool.false_eq_true, if_false, Res.state] at h
        rw [Res.ok.injEq] at h
        obtain ⟨h1, h2⟩ := h
        subst h1
        subst h2
        refine ⟨rfl, ?_, ?_, ?_⟩
        · intro a2 ha2
          cases Option.some.inj ha2
          refine nodeShape_mono ?_ (nodeShape_newElem c.store "div" [("type", "act")])
          repeat' first
            | exact storeExtends_refl _
            | refine storeExtends_trans ?_ (storeExtends_setTextAt _ _ _)
            | refine storeExtends_trans ?_ (storeExtends_updateAt _ _ _ (fun _ => ⟨rfl, rfl⟩))
            | refine storeExtends_trans ?_ (storeExtends_append _ _)
        · intro q hq
          exact Option.noConfusion hq
        · rw [numActs_append, isActTree_of_shape (hinv.1 a hact)]
          have h3 := hinv.2.2
          rw [hact] at h3
          simp only [Option.isSome_some, eq_self_iff_true, if_true] at h3 ⊢
          omega
    · simp only [bind, M.bind, pure, M.pure, mget, mmodify, mthrow, newElement,
        subElement, putText, writeBody, Store.newElem, Store.subElem, hp, hps,
        if_neg hn, Option.isSome_some, Option.isSome_none, eq_self_iff_true, if_true,
        Bool.false_eq_true, if_false, Res.state] at h
      rw [Res.ok.injEq] at h
      obtain ⟨h1, h2⟩ := h
      subst h1
      subst h2
      refine ⟨rfl, ?_, ?_, ?_⟩
      · intro a2 ha2
        cases Option.some.inj ha2
        refine nodeShape_mono ?_ (nodeShape_newElem c.store "div" [("type", "act")])
        repeat' first
          | exact storeExtends_refl _
          | refine storeExtends_trans ?_ (storeExtends_setTextAt _ _ _)
          | refine storeExtends_trans ?_ (storeExtends_updateAt _ _ _ (fun _ => ⟨rfl, rfl⟩))
          | refine storeExtends_trans ?_ (storeExtends_append _ _)
      · intro q hq
        exact Option.noConfusion hq
      · have h3 := hinv.2.2
        simp only [Option.isSome_some, eq_self_iff_true, if_true]
        omega
  | some p =>
    have hps : c.prologue.isSome = true := by rw [hp]; rfl
    have hfalse : isActTree (snapshot c.store p) = false :=
      isActTree_false_of_shape (hinv.2.1 p hp) rfl
    by_cases hn : n + 1 > 1
    · cases hact : c.act with
      | none =>
        simp only [bind, M.bind, pure, M.pure, mget, mmodify, mthrow, newElement,
          subElement, putText, writeBody, Store.newElem, Store.subElem, hp, hps, hact,
          if_pos hn, Option.isSome_some, Option.isSome_none, eq_self_iff_true, if_true,
          Bool.false_eq_true, if_false, Res.state] at h
        exact Res.noConfusion h
      | some a =>
        simp only [bind, M.bind, pure, M.pure, mget, mmodify, mthrow, newElement,
          subElement, putText, writeBody, Store.newElem, Store.subElem, hp, hps, hact,
          if_pos hn, Option.isSome_some, Option.isSome_none, eq_self_iff_true, if_true,
          Bool.false_eq_true, if_false, Res.state] at h
        rw [Res.ok.injEq] at h
        obtain ⟨h1, h2⟩ := h
        subst h1
        subst h2
        refine ⟨rfl, ?_, ?_, ?_⟩
        · intro a2 ha2
          cases Option.some.inj ha2
          refine nodeShape_mono ?_ (nodeShape_newElem c.store "div" [("type", "act")])
          repeat' first
            | exact storeExtends_refl _
            | refine storeExtends_trans ?_ (storeExtends_setTextAt _ _ _)
            | refine storeExtends_trans ?_ (storeExtends_updateAt _ _ _ (fun _ => ⟨rfl, rfl⟩))
            | refine storeExtends_trans ?_ (storeExtends_append _ _)
        · intro q hq
          exact Option.noConfusion hq
        · rw [numActs_append, isActTree_of_shape (hinv.1 a hact)]
          rw [numActs_append, hfalse]
          have h3 := hinv.2.2
          rw [hact] at h3
          simp only [Option.isSome_some, eq_self_iff_true, if_true,
            Bool.false_eq_true, if_false] at h3 ⊢
          omega
    · simp only [bind, M.bind, pure, M.pure, mget, mmodify, mthrow, newElement,
        subElement, putText, writeBody, Store.newElem, Store.subElem, hp, hps,
        if_neg hn, Option.isSome_some, Option.isSome_none, eq_self_iff_true, if_true,
        Bool.false_eq_true, if_false, Res.state] at h
      rw [Res.ok.injEq] at h
      obtain ⟨h1, h2⟩ := h
      subst h1
      subst h2
      refine ⟨rfl, ?_, ?_, ?_⟩
      · intro a2 ha2
        cases Option.some.inj ha2
        refine nodeShape_mono ?_ (nodeShape_newElem c.store "div" [("type", "act")])
        repeat' first
          | exact storeExtends_refl _
          | refine storeExtends_trans ?_ (storeExtends_setTextAt _ _ _)
          | refine storeExtends_trans ?_ (storeExtends_updateAt _ _ _ (fun _ => ⟨rfl, rfl⟩))
          | refine storeExtends_trans ?_ (storeExtends_append _ _)
      · intro q hq
        exact Option.noConfusion hq
      · rw [numActs_append, hfalse]
        have h3 := hinv.2.2
        simp only [Option.isSome_some, eq_self_iff_true, if_true,
          Bool.false_eq_true, if_false] at h3 ⊢
        omega

theorem body_epilogue_inv (r : TextRegion) (il : Bool) (n : Nat) (c : Conv)
    (hinv : ActInv c n) {u : Unit} {c1 : Conv}
    (h : body_epilogue r il c = Res.ok u c1) :
    (il = false → ActInv c1 n) ∧ (il = true → numActs c1.bodyWritten = n) := by
  unfold body_epilogue at h
  cases il with
  | false =>
    simp only [bind, M.bind, pure, M.pure, mget, mmodify, writeBody,
      Bool.false_eq_true, if_false, Res.state] at h
    rw [Res.ok.injEq] at h
    obtain ⟨-, h2⟩ := h
    subst h2
    exact ⟨fun _ => hinv, fun hf => Bool.noConfusion hf⟩
  | true =>
    cases hact : c.act with
    | none =>
      simp only [bind, M.bind, pure, M.pure, mget, mmodify, mthrow, writeBody, hact,
        eq_self_iff_true, if_true, Res.state] at h
      exact Res.noConfusion h
    | some a =>
      simp only [bind, M.bind, pure, M.pure, mget, mmodify, writeBody, hact,
        eq_self_iff_true, if_true, Res.state] at h
      rw [Res.ok.injEq] at h
      obtain ⟨-, h2⟩ := h
      subst h2
      refine ⟨fun hf => Bool.noConfusion hf, fun _ => ?_⟩
      rw [numActs_append, isActTree_of_shape (hinv.1 a hact)]
      have h3 := hinv.2.2
      rw [hact] at h3
      simp only [Option.isSome_some, eq_self_iff_true, if_true] at h3 ⊢
      omega

theorem branch_aux {m : M Unit} (hk : KeepsActInv m) (n : Nat) (c : Conv)
    (hinv : ActInv c n) {nb : Nat} {cb : Conv}
    (h : (do m; pure n : M Nat) c = Res.ok nb cb) : nb = n ∧ ActInv cb n := by
  have hs := hk c n hinv
  have h2 : M.bind m (fun _ => M.pure n) c = Res.ok nb cb := h
  unfold M.bind at h2
  cases hres : m c with
  | ok a c2 =>
    rw [hres] at h2 hs
    unfold M.pure at h2
    rw [Res.ok.injEq] at h2
    obtain ⟨e1, e2⟩ := h2
    subst e1
    subst e2
    exact ⟨rfl, hs⟩
  | err e c2 =>
    rw [hres] at h2
    exact Res.noConfusion h2

theorem body_branch_inv (r : TextRegion) (n : Nat) (c : Conv) (hinv : ActInv c n)
    {nb : Nat} {cb : Conv} (h : body_branch r n c = Res.ok nb cb) :
    nb = n + (if r.type == some "header" then 1 else 0) ∧ ActInv cb nb := by
  unfold body_branch at h
  by_cases hh : (r.type == some "header") = true
  · rw [if_pos hh] at h
    rw [if_pos hh]
    obtain ⟨e1, e2⟩ := body_header_inv r n c hinv h
    subst e1
    exact ⟨rfl, e2⟩
  · rw [if_neg hh] at h
    rw [if_neg hh]
    repeat' split at h
    all_goals first
      | (have hba := branch_aux (body_heading_actInv r) n c hinv h
         exact ⟨hba.1.trans (Nat.add_zero n).symm, by rw [hba.1]; exact hba.2⟩)
      | (have hba := branch_aux (body_toc_actInv r) n c hinv h
         exact ⟨hba.1.trans (Nat.add_zero n).symm, by rw [hba.1]; exact hba.2⟩)
      | (have hba := branch_aux (body_signature_actInv r) n c hinv h
         exact ⟨hba.1.trans (Nat.add_zero n).symm, by rw [hba.1]; exact hba.2⟩)
      | (have hba := branch_aux (body_floating_actInv r) n c hinv h
         exact ⟨hba.1.trans (Nat.add_zero n).symm, by rw [hba.1]; exact hba.2⟩)
      | (have hba := branch_aux (body_credit_actInv r) n c hinv h
         exact ⟨hba.1.trans (Nat.add_zero n).symm, by rw [hba.1]; exact hba.2⟩)
      | (have hba := branch_aux (body_paragraph_actInv r) n c hinv h
         exact ⟨hba.1.trans (Nat.add_zero n).symm, by rw [hba.1]; exact hba.2⟩)
      | (have hba := branch_aux (body_caption_actInv r) n c hinv h
         exact ⟨hba.1.trans (Nat.add_zero n).symm, by rw [hba.1]; exact hba.2⟩)
      | (have hba := branch_aux (body_footnote_actInv r) n c hinv h
         exact ⟨hba.1.trans (Nat.add_zero n).symm, by rw [hba.1]; exact hba.2⟩)
      | (have hba := branch_aux (body_catchword_actInv r) n c hinv h
         exact ⟨hba.1.trans (Nat.add_zero n).symm, by rw [hba.1]; exact hba.2⟩)
      | (have hba := branch_aux (body_unknown_actInv r) n c hinv h
         exact ⟨hba.1.trans (Nat.add_zero n).symm, by rw [hba.1]; exact hba.2⟩)

theorem build_body_inv (r : TextRegion) (il : Bool) (n : Nat) (c : Conv)
    (hinv : ActInv c n) {n1 : Nat} {c1 : Conv}
    (h : build_body r il n c = Res.ok n1 c1) :
    n1 = n + (if r.type == some "header" then 1 else 0)
    ∧ (il = false → ActInv c1 n1) ∧ (il = true → numActs c1.bodyWritten = n1) := by
  have h2 : M.bind (body_branch r n)
      (fun nb => M.bind (body_epilogue r il) (fun _ => M.pure nb)) c = Res.ok n1 c1 := h
  unfold M.bind at h2
  cases hb : body_branch r n c with
  | err e c2 =>
    simp only [hb] at h2
    exact Res.noConfusion h2
  | ok nb cb =>
    simp only [hb] at h2
    obtain ⟨hnb, hcb⟩ := body_branch_inv r n c hinv hb
    cases he : body_epilogue r il cb with
    | err e c3 =>
      simp only [he] at h2
      exact Res.noConfusion h2
    | ok u c3 =>
      simp only [he] at h2
      unfold M.pure at h2
      rw [Res.ok.injEq] at h2
      obtain ⟨e1, e2⟩ := h2
      subst e1
      subst e2
      obtain ⟨g1, g2⟩ := body_epilogue_inv r il nb cb hcb he
      exact ⟨hnb, g1, g2⟩

theorem bodyStep_errors_mono (c : Conv) (acc : DriveAcc) (n : Nat) (r : TextRegion)
    (il : Bool) : ∃ E, (bodyStep c acc n r il).2.1.errors = acc.errors ++ E := by
  unfold bodyStep
  cases hb : build_body r il n c with
  | ok n1 c1 => exact ⟨[], by simp⟩
  | err e c1 => exact ⟨[c.current_file ++ " FEHLER body"], rfl⟩

theorem bodyStep_ok (c : Conv) (acc : DriveAcc) (n : Nat) (r : TextRegion) (il : Bool)
    (hinv : ActInv c n)
    (herr : (bodyStep c acc n r il).2.1.errors = acc.errors) :
    (bodyStep c acc n r il).2.1.trace = acc.trace ++ [⟨"body", r.id, r.type⟩]
    ∧ (bodyStep c acc n r il).2.2 = n + (if r.type == some "header" then 1 else 0)
    ∧ (il = false → ActInv (bodyStep c acc n r il).1 ((bodyStep c acc n r il).2.2))
    ∧ (il = true →
        numActs (bodyStep c acc n r il).1.bodyWritten = (bodyStep c acc n r il).2.2) := by
  unfold bodyStep at herr ⊢
  cases hb : build_body r il n c with
  | ok n1 c1 =>
    obtain ⟨h1, h2, h3⟩ := build_body_inv r il n c hinv hb
    exact ⟨rfl, h1, h2, h3⟩
  | err e c1 =>
    rw [hb] at herr
    exfalso
    have hl := congrArg List.length herr
    simp only [List.length_append, List.length_cons, List.length_nil] at hl
    omega

/-- Reflexivity of the derived equality test on optional regions (the
object-identity check compares a region against itself at the last
position). -/
theorem optionRegion_beq_refl (x : Option TextRegion) : (x == x) = true := by
  cases x with
  | none => rfl
  | some r => simp

theorem bodyFor_errors_mono (rs : List TextRegion) :
    ∀ (lastR : Option TextRegion) c acc n lf,
      ∃ E, (bodyFor lastR c acc n rs lf).2.1.errors = acc.errors ++ E := by
  induction rs with
  | nil => intro lastR c acc n lf; exact ⟨[], by simp [bodyFor]⟩
  | cons r rest ih =>
    intro lastR c acc n lf
    have hstep : bodyFor lastR c acc n (r :: rest) lf
        = bodyFor lastR (bodyStep c acc n r (lf && (some r == lastR))).1
            (bodyStep c acc n r (lf && (some r == lastR))).2.1
            (bodyStep c acc n r (lf && (some r == lastR))).2.2 rest lf := rfl
    rw [hstep]
    obtain ⟨E1, hE1⟩ := bodyStep_errors_mono c acc n r (lf && (some r == lastR))
    obtain ⟨E2, hE2⟩ := ih lastR (bodyStep c acc n r (lf && (some r == lastR))).1
      (bodyStep c acc n r (lf && (some r == lastR))).2.1
      (bodyStep c acc n r (lf && (some r == lastR))).2.2 lf
    exact ⟨E1 ++ E2, by rw [hE2, hE1, List.append_assoc]⟩

theorem bodyFor_inv (rs : List TextRegion) :
    ∀ (lastR : Option TextRegion) c acc n lf, ActInv c n →
      (bodyFor lastR c acc n rs lf).2.1.errors = acc.errors →
      (∀ r ∈ rs.dropLast, (some r == lastR) = false) →
      (bodyFor lastR c acc n rs lf).2.1.trace
          = acc.trace ++ rs.map (fun x => (⟨"body", x.id, x.type⟩ : Ev))
      ∧ (bodyFor lastR c acc n rs lf).2.2
          = n + rs.countP (fun x => x.type == some "header")
      ∧ ((lf && (rs.getLast? == lastR)) = false
          → ActInv (bodyFor lastR c acc n rs lf).1 ((bodyFor lastR c acc n rs lf).2.2))
      ∧ ((lf && (rs.getLast? == lastR)) = true → rs ≠ [] →
          numActs (bodyFor lastR c acc n rs lf).1.bodyWritten
            = (bodyFor lastR c acc n rs lf).2.2) := by
  induction rs with
  | nil =>
    intro lastR c acc n lf hinv herr hnd
    refine ⟨by simp [bodyFor], by simp [bodyFor], fun _ => hinv,
      fun _ hne => absurd rfl hne⟩
  | cons r rest ih =>
    intro lastR c acc n lf hinv herr hnd
    cases rest with
    | nil =>
      have hstep1 : bodyFor lastR c acc n [r] lf
          = bodyStep c acc n r (lf && (some r == lastR)) := rfl
      rw [hstep1] at herr ⊢
      obtain ⟨h1, h2, h3, h4⟩ := bodyStep_ok c acc n r (lf && (some r == lastR)) hinv herr
      refine ⟨?_, ?_, ?_, ?_⟩
      · rw [h1]
        simp
      · rw [h2]
        simp [List.countP_cons]
      · intro hcond
        exact h3 hcond
      · intro hcond _
        exact h4 hcond
    | cons r2 rs2 =>
      have hr : (some r == lastR) = false :=
        hnd r (List.mem_cons_self r ((r2 :: rs2).dropLast))
      have hflag : (lf && (some r == lastR)) = false := by
        rw [hr, Bool.and_false]
      have hstep : bodyFor lastR c acc n (r :: r2 :: rs2) lf
          = bodyFor lastR (bodyStep c acc n r (lf && (some r == lastR))).1
              (bodyStep c acc n r (lf && (some r == lastR))).2.1
              (bodyStep c acc n r (lf && (some r == lastR))).2.2 (r2 :: rs2) lf := rfl
      rw [hstep] at herr ⊢
      obtain ⟨E1, hE1⟩ := bodyStep_errors_mono c acc n r (lf && (some r == lastR))
      obtain ⟨E2, hE2⟩ := bodyFor_errors_mono (r2 :: rs2) lastR
        (bodyStep c acc n r (lf && (some r == lastR))).1
        (bodyStep c acc n r (lf && (some r == lastR))).2.1
        (bodyStep c acc n r (lf && (some r == lastR))).2.2 lf
      rw [hE2, hE1] at herr
      have hnil : E1 = [] ∧ E2 = [] := by
        have hl := congrArg List.length herr
        simp only [List.length_append] at hl
        constructor <;> [exact List.length_eq_zero.mp (by omega);
          exact List.length_eq_zero.mp (by omega)]
      have hserr : (bodyStep c acc n r (lf && (some r == lastR))).2.1.errors
          = acc.errors := by
        rw [hE1, hnil.1, List.append_nil]
      obtain ⟨s1, s2, s3, -⟩ := bodyStep_ok c acc n r (lf && (some r == lastR)) hinv hserr
      have hinv2 := s3 hflag
      have herr2 : (bodyFor lastR (bodyStep c acc n r (lf && (some r == lastR))).1
          (bodyStep c acc n r (lf && (some r == lastR))).2.1
          (bodyStep c acc n r (lf && (some r == lastR))).2.2 (r2 :: rs2) lf).2.1.errors
          = (bodyStep c acc n r (lf && (some r == lastR))).2.1.errors := by
        rw [hE2, hnil.2, List.append_nil]
      have hnd2 : ∀ x ∈ (r2 :: rs2).dropLast, (some x == lastR) = false :=
        fun x hx => hnd x (List.mem_cons_of_mem r hx)
      obtain ⟨g1, g2, g3, g4⟩ := ih lastR (bodyStep c acc n r (lf && (some r == lastR))).1
        (bodyStep c acc n r (lf && (some r == lastR))).2.1
        (bodyStep c acc n r (lf && (some r == lastR))).2.2 lf hinv2 herr2 hnd2
      refine ⟨?_, ?_, ?_, ?_⟩
      · rw [g1, s1]
        simp
      · rw [g2, s2]
        simp only [List.countP_cons]
        omega
      · intro hcond
        rw [List.getLast?_cons_cons] at hcond
        exact g3 hcond
      · intro hcond _
        rw [List.getLast?_cons_cons] at hcond
        exact g4 hcond (by simp)

theorem headerBodyCount_append_body (t : List Ev) (rs : List TextRegion) :
    headerBodyCount (t ++ rs.map (fun x => (⟨"body", x.id, x.type⟩ : Ev)))
      = headerBodyCount t + rs.countP (fun x => x.type == some "header") := by
  simp only [headerBodyCount, List.countP_append, List.countP_map]
  rfl

theorem bodyLoop_errors_mono (fs : List PageFile) :
    ∀ c acc n pg c2 acc2 n2, bodyLoop c acc n pg fs = Except.ok (c2, acc2, n2) →
      ∃ E, acc2.errors = acc.errors ++ E := by
  induction fs with
  | nil =>
    intro c acc n pg c2 acc2 n2 h
    unfold bodyLoop at h
    by_cases hcf : (c.current_file == "end") = true
    · rw [if_pos hcf] at h
      rw [Except.ok.injEq, Prod.mk.injEq, Prod.mk.injEq] at h
      obtain ⟨-, h2, -⟩ := h
      exact ⟨[], by rw [← h2]; simp⟩
    · rw [if_neg hcf] at h
      cases hregs : pg.text_region_list with
      | nil =>
        simp only [hregs] at h
        exact Except.noConfusion h
      | cons r0 rl =>
        simp only [hregs] at h
        rw [Except.ok.injEq, Prod.mk.injEq, Prod.mk.injEq] at h
        obtain ⟨-, h2, -⟩ := h
        obtain ⟨E, hE⟩ := bodyFor_errors_mono (r0 :: rl) (r0 :: rl).getLast? c acc n true
        exact ⟨E, by rw [← h2]; exact hE⟩
  | cons pf fs2 ih =>
    intro c acc n pg c2 acc2 n2 h
    unfold bodyLoop at h
    by_cases hcf : (c.current_file == "end") = true
    · rw [if_pos hcf] at h
      rw [Except.ok.injEq, Prod.mk.injEq, Prod.mk.injEq] at h
      obtain ⟨-, h2, -⟩ := h
      exact ⟨[], by rw [← h2]; simp⟩
    · rw [if_neg hcf] at h
      cases hregs : pg.text_region_list with
      | nil =>
        simp only [hregs] at h
        exact Except.noConfusion h
      | cons r0 rl =>
        simp only [hregs] at h
        cases hmk : Page.make pf with
        | error e =>
          rw [hmk] at h
          exact Except.noConfusion h
        | ok np =>
          rw [hmk] at h
          obtain ⟨E1, hE1⟩ := bodyFor_errors_mono (r0 :: rl) (r0 :: rl).getLast? c acc n false
          obtain ⟨E2, hE2⟩ := ih _ _ _ np c2 acc2 n2 h
          exact ⟨E1 ++ E2, by rw [hE2, hE1, List.append_assoc]⟩

theorem bodyLoop_inv (fs : List PageFile) :
    ∀ c acc n pg c2 acc2 n2,
      bodyLoop c acc n pg fs = Except.ok (c2, acc2, n2) →
      ActInv c n →
      (c.current_file == "end") = false →
      (∀ pf ∈ fs, (pf.file == "end") = false) →
      (∀ r ∈ pg.text_region_list.dropLast,
        (some r == pg.text_region_list.getLast?) = false) →
      (∀ pf ∈ fs, ∀ np, Page.make pf = Except.ok np →
        ∀ r ∈ np.text_region_list.dropLast,
          (some r == np.text_region_list.getLast?) = false) →
      acc2.errors = acc.errors →
      numActs c2.bodyWritten = n2
      ∧ headerBodyCount acc2.trace + n = headerBodyCount acc.trace + n2 := by
  induction fs with
  | nil =>
    intro c acc n pg c2 acc2 n2 h hinv hcf hfs hnd hfsnd herr
    unfold bodyLoop at h
    rw [if_neg (by rw [hcf]; exact Bool.false_ne_true)] at h
    cases hregs : pg.text_region_list with
    | nil =>
      simp only [hregs] at h
      exact Except.noConfusion h
    | cons r0 rl =>
      simp only [hregs] at h
      rw [Except.ok.injEq, Prod.mk.injEq, Prod.mk.injEq] at h
      obtain ⟨hc2, hacc2, hn2⟩ := h
      rw [hregs] at hnd
      obtain ⟨htr, hcount, -, hlast⟩ := bodyFor_inv (r0 :: rl) (r0 :: rl).getLast?
        c acc n true hinv (by rw [hacc2]; exact herr) hnd
      constructor
      · rw [← hc2, ← hn2]
        refine hlast ?_ (by simp)
        rw [optionRegion_beq_refl]
        rfl
      · rw [← hacc2, ← hn2, htr, headerBodyCount_append_body, hcount]
        omega
  | cons pf fs2 ih =>
    intro c acc n pg c2 acc2 n2 h hinv hcf hfs hnd hfsnd herr
    unfold bodyLoop at h
    rw [if_neg (by rw [hcf]; exact Bool.false_ne_true)] at h
    cases hregs : pg.text_region_list with
    | nil =>
      simp only [hregs] at h
      exact Except.noConfusion h
    | cons r0 rl =>
      simp only [hregs] at h
      cases hmk : Page.make pf with
      | error e =>
        rw [hmk] at h
        exact Except.noConfusion h
      | ok np =>
        rw [hmk] at h
        rw [hregs] at hnd
        obtain ⟨E1, hE1⟩ := bodyFor_errors_mono (r0 :: rl) (r0 :: rl).getLast? c acc n false
        obtain ⟨E2, hE2⟩ := bodyLoop_errors_mono fs2 _ _ _ np c2 acc2 n2 h
        rw [hE1] at hE2
        have hnil : E1 = [] ∧ E2 = [] := by
          rw [hE2] at herr
          have hl := congrArg List.length herr
          simp only [List.length_append] at hl
          constructor <;> [exact List.length_eq_zero.mp (by omega);
            exact List.length_eq_zero.mp (by omega)]
        have hserr : (bodyFor (r0 :: rl).getLast? c acc n (r0 :: rl) false).2.1.errors
            = acc.errors := by
          rw [hE1, hnil.1, List.append_nil]
        obtain ⟨htr, hcount, hactinv, -⟩ := bodyFor_inv (r0 :: rl) (r0 :: rl).getLast?
          c acc n false hinv hserr hnd
        have hinv2 : ActInv ({ (bodyFor (r0 :: rl).getLast? c acc n (r0 :: rl) false).1 with
            current_file := pf.file })
            ((bodyFor (r0 :: rl).getLast? c acc n (r0 :: rl) false).2.2) :=
          hactinv rfl
        have hcf2 : (({ (bodyFor (r0 :: rl).getLast? c acc n (r0 :: rl) false).1 with
            current_file := pf.file }).current_file == "end") = false :=
          hfs pf (List.mem_cons_self pf fs2)
        have hfs2 : ∀ q ∈ fs2, (q.file == "end") = false :=
          fun q hq => hfs q (List.mem_cons_of_mem pf hq)
        have hnd2 : ∀ r ∈ np.text_region_list.dropLast,
            (some r == np.text_region_list.getLast?) = false :=
          hfsnd pf (List.mem_cons_self pf fs2) np hmk
        have hfsnd2 : ∀ q ∈ fs2, ∀ nq, Page.make q = Except.ok nq →
            ∀ r ∈ nq.text_region_list.dropLast,
              (some r == nq.text_region_list.getLast?) = false :=
          fun q hq => hfsnd q (List.mem_cons_of_mem pf hq)
        have herr2 : acc2.errors
            = (bodyFor (r0 :: rl).getLast? c acc n (r0 :: rl) false).2.1.errors := by
          rw [herr, hserr]
        obtain ⟨g1, g2⟩ := ih _ _ _ np c2 acc2 n2 h hinv2 hcf2 hfs2 hnd2 hfsnd2 herr2
        refine ⟨g1, ?_⟩
        rw [htr, headerBodyCount_append_body, hcount] at g2
        omega

/-- C4 amended: in a run whose first resolved region is a body marker (the
body phase starts immediately), with no input file named "end" and no page
whose resolved region list repeats its final region object at an earlier
position (a duplicated reading-order reference would make the line-449
identity test fire early and flush extra acts), if the run completes with
an empty error log then the number of acts flushed to the body stream
equals the number of header-typed regions processed by the body phase. -/
theorem C4_act_count (inputs : List PageFile) (p0 : PageFile) (rest : List PageFile)
    (pg : Page) (r0 : TextRegion) (res : RunResult)
    (hfl : file_list inputs = p0 :: rest)
    (hmk : Page.make p0 = Except.ok pg)
    (hhd : pg.text_region_list.head? = some r0)
    (hmarker : typeInMarker r0 = true)
    (hend0 : (p0.file == "end") = false)
    (hendr : ∀ pf ∈ rest, (pf.file == "end") = false)
    (hnd : ∀ r ∈ pg.text_region_list.dropLast,
      (some r == pg.text_region_list.getLast?) = false)
    (hndr : ∀ pf ∈ rest, ∀ np, Page.make pf = Except.ok np →
      ∀ r ∈ np.text_region_list.dropLast,
        (some r == np.text_region_list.getLast?) = false)
    (hrun : Conversion.run inputs = Except.ok res)
    (herr : res.errors = []) :
    numActs res.bodyWritten = headerBodyCount res.trace := by
  unfold Conversion.run at hrun
  rw [hfl] at hrun
  simp only [hmk] at hrun
  unfold create_tei at hrun
  rw [hhd] at hrun
  simp only [hmarker, eq_self_iff_true, if_true,
    show (("body" : String) == "front") = false from rfl,
    show (("body" : String) == "body") = true from rfl,
    Bool.false_eq_true, if_false] at hrun
  split at hrun
  · exact Except.noConfusion hrun
  · rename_i c3 acc3 k heq
    rw [Except.ok.injEq] at hrun
    subst hrun
    have hinv0 : ActInv { Conv.init p0.file with text_part := "body" } 0 :=
      ⟨fun a ha => Option.noConfusion ha, fun p hp => Option.noConfusion hp, rfl⟩
    obtain ⟨g1, g2⟩ := bodyLoop_inv rest { Conv.init p0.file with text_part := "body" }
      { trace := [], errors := [] } 0 pg c3 acc3 k heq hinv0 hend0 hendr hnd hndr herr
    have h0 : headerBodyCount ({ trace := [], errors := [] } : DriveAcc).trace = 0 := rfl
    show numActs c3.bodyWritten = headerBodyCount acc3.trace
    rw [g1]
    omega

/-- Witness for the amended C4 on a concrete error-free two-act input. -/
theorem C4_act_count_witness :
    numActs c4GoodRes.bodyWritten = headerBodyCount c4GoodRes.trace
    ∧ headerBodyCount c4GoodRes.trace = 2 :=
  ⟨C4_act_count [c4GoodPage] c4GoodPage [] c4GoodPg c4GoodR0 c4GoodRes rfl rfl rfl rfl rfl
      (fun pf hpf => absurd hpf (List.not_mem_nil pf))
      (by decide)
      (fun pf hpf => absurd hpf (List.not_mem_nil pf)) rfl rfl,
    rfl⟩

end Drama
